import Mathlib

/-!
# Listing scraper: snapshot diffing and persisted-state reconciliation

A shallow embedding of `scraper.go`.  Go strings are modelled as Lean strings,
Go slices as lists, and the body of `main` is split into the steps it performs
one after the other: loading the stored snapshot, assembling the current
listings, saving the snapshot, comparing, and reporting.
-/

namespace Scraper

/-! ## Data model (`type Listing struct`) -/

/-- One listing: five display strings. -/
structure Listing where
  Title : String
  Price : String
  Mileage : String
  City : String
  Distance : String
deriving DecidableEq, Repr

/-- The identity key of a listing, as a triple (used only to state properties). -/
def keyOf (l : Listing) : String × String × String := (l.Title, l.Price, l.Mileage)

/-! ## `compareListings` -/

/-- The inner loop of `compareListings`: scan `others` in order, set `found` and
break on the first element whose Title, Price and Mileage equal those of `x`. -/
def foundIn (x : Listing) : List Listing → Bool
  | [] => false
  | y :: rest =>
    if x.Title == y.Title && x.Price == y.Price && x.Mileage == y.Mileage then true
    else foundIn x rest

/-- The function `compareListings(previous, current)`: two outer loops, each
appending to its result slice the elements for which the inner loop did not
set `found`. -/
def compareListings (previous current : List Listing) : List Listing × List Listing :=
  let newListings := current.foldl
    (fun acc curr => if !(foundIn curr previous) then acc ++ [curr] else acc) []
  let removedListings := previous.foldl
    (fun acc prev => if !(foundIn prev current) then acc ++ [prev] else acc) []
  (newListings, removedListings)

/-! ## Go's `encoding/csv`, with the settings of `csv.NewReader` and `csv.NewWriter`

The program reads the snapshot with `csv.NewReader(file).ReadAll()` and writes
it with `csv.NewWriter(file).Write`.  Both come from Go's standard library; the
definitions below follow `encoding/csv` with the settings those constructors
leave in place: `Comma` is `','`, `Comment` is unset, `LazyQuotes` and
`TrimLeadingSpace` are false, `FieldsPerRecord` starts at 0 and `UseCRLF` is
false.  Positions kept only for error messages are left out, since the program
only tests `err == nil`.  A file's content is a string, read as its sequence of
characters. -/

/-- The errors `ReadAll` can return: `ErrBareQuote`, `ErrQuote`, `ErrFieldCount`. -/
inductive CsvError where
  | bareQuote
  | quote
  | fieldCount
deriving DecidableEq, Repr

/-- `lengthNL(b)`: 1 when `b` ends in a line feed, else 0. -/
def lengthNL (b : List Char) : Nat :=
  if b.getLast? = some '\n' then 1 else 0

/-- `Reader.readLine`: the bytes up to and including the next line feed (or all
that is left); a trailing carriage return before the end of input is dropped,
and a line ending in carriage return + line feed has them replaced by a single
line feed.  Returns the line, whether `io.EOF` is returned, and the unread
input. -/
def readLine (inp : List Char) : List Char × Bool × List Char :=
  let before := inp.takeWhile (fun c => c != '\n')
  let after := inp.dropWhile (fun c => c != '\n')
  let line := match after with
    | [] => before
    | nl :: _ => before ++ [nl]
  let hitEOF := after.isEmpty
  let readSize := line.length
  let line := if readSize > 0 && hitEOF && line.getLast? = some '\r' then line.dropLast else line
  let eof := hitEOF && readSize == 0
  let line :=
    if line.length ≥ 2 ∧ line.dropLast.getLast? = some '\r' ∧ line.getLast? = some '\n' then
      line.dropLast.dropLast ++ ['\n']
    else line
  (line, eof, after.tail)

/-- Where `ReadAll` stands: about to read the next record, at the label
`parseField` with the rest of the current line, inside the loop of a quoted
field with the rest of the current line, or returned. -/
inductive Phase where
  | recordStart
  | fieldStart (line : List Char)
  | inQuotes (line : List Char)
  | finished (result : Except CsvError (List (List String)))

/-- The reader's state: unread input, `FieldsPerRecord`, the records `ReadAll`
has collected, the fields of the record being parsed, and the part of
`recordBuffer` that belongs to the field being parsed. -/
structure ReaderState where
  phase : Phase
  inp : List Char
  fieldsPerRecord : Nat
  records : List (List String)
  fields : List String
  buf : List Char

/-- `ReadAll` returns `result`; the buffers of the record being parsed are dropped. -/
def finish (st : ReaderState) (result : Except CsvError (List (List String))) : ReaderState :=
  { st with phase := Phase.finished result, fields := [], buf := [] }

/-- The end of `readRecord` after `parseField` is left without error: check or
set `FieldsPerRecord`, then hand the record to `ReadAll`, which appends it and
reads the next one.  A wrong field count makes `ReadAll` return the error. -/
def endRecord (st : ReaderState) (dst : List String) : ReaderState :=
  if st.fieldsPerRecord > 0 ∧ dst.length ≠ st.fieldsPerRecord then
    finish st (Except.error CsvError.fieldCount)
  else
    { st with
      phase := Phase.recordStart
      fieldsPerRecord := if st.fieldsPerRecord = 0 then dst.length else st.fieldsPerRecord
      records := st.records ++ [dst]
      fields := []
      buf := [] }

/-- One pass through the loop the reader is in. -/
def step (st : ReaderState) : ReaderState :=
  match st.phase with
  | Phase.finished _ => st
  | Phase.recordStart =>
    -- `readRecord`: read a line, skipping empty lines; at `io.EOF`, `ReadAll` returns
    let r := readLine st.inp
    if !r.2.1 && r.1.length == lengthNL r.1 then
      { st with inp := r.2.2 }
    else if r.2.1 then
      finish { st with inp := r.2.2 } (Except.ok st.records)
    else
      { st with phase := Phase.fieldStart r.1, inp := r.2.2, fields := [], buf := [] }
  | Phase.fieldStart line =>
    if line.head? ≠ some '"' then
      -- non-quoted field: up to the next comma, or to the end of the line
      let i := line.dropWhile (fun c => c != ',')
      let field := match i with
        | [] => line.take (line.length - lengthNL line)
        | _ :: _ => line.takeWhile (fun c => c != ',')
      if '"' ∈ field then
        finish st (Except.error CsvError.bareQuote)
      else
        match i with
        | [] => endRecord st (st.fields ++ [String.mk field])
        | _ :: rest =>
          { st with phase := Phase.fieldStart rest, fields := st.fields ++ [String.mk field] }
    else
      -- quoted field: skip the opening quote
      { st with phase := Phase.inQuotes line.tail, buf := [] }
  | Phase.inQuotes line =>
    match line.dropWhile (fun c => c != '"') with
    | _ :: afterQuote =>
      -- hit the next quote
      let buf := st.buf ++ line.takeWhile (fun c => c != '"')
      match afterQuote with
      | '"' :: rest => { st with phase := Phase.inQuotes rest, buf := buf ++ ['"'] }
      | ',' :: rest =>
        { st with phase := Phase.fieldStart rest, fields := st.fields ++ [String.mk buf], buf := [] }
      | _ =>
        if lengthNL afterQuote = afterQuote.length then
          endRecord st (st.fields ++ [String.mk buf])
        else
          finish st (Except.error CsvError.quote)
    | [] =>
      if line.length > 0 then
        -- end of line inside the quotes: keep it and read the next line
        let r := readLine st.inp
        { st with phase := Phase.inQuotes r.1, inp := r.2.2, buf := st.buf ++ line }
      else
        -- end of input inside the quotes
        finish st (Except.error CsvError.quote)

/-- Run the reader for at most `fuel` passes. -/
def runReader : Nat → ReaderState → ReaderState
  | 0, st => st
  | fuel + 1, st =>
    match st.phase with
    | Phase.finished _ => st
    | _ => runReader fuel (step st)

/-- `csv.NewReader(file).ReadAll()` on a file with the given content.  The number
of passes allowed is never reached (`runReader_finishes`). -/
def ReadAll (content : String) : Except CsvError (List (List String)) :=
  let st0 : ReaderState :=
    { phase := Phase.recordStart, inp := content.data, fieldsPerRecord := 0,
      records := [], fields := [], buf := [] }
  match (runReader (3 * content.data.length + 2) st0).phase with
  | Phase.finished result => result
  | _ => Except.error CsvError.quote

/-- `unicode.IsSpace`. -/
def isSpace (r : Char) : Bool :=
  r == '\t' || r == '\n' || r.toNat == 0x0B || r.toNat == 0x0C || r == '\r' || r == ' ' ||
  r.toNat == 0x85 || r.toNat == 0xA0 || r.toNat == 0x1680 ||
  (0x2000 ≤ r.toNat && r.toNat ≤ 0x200A) || r.toNat == 0x2028 || r.toNat == 0x2029 ||
  r.toNat == 0x202F || r.toNat == 0x205F || r.toNat == 0x3000

/-- `Writer.fieldNeedsQuotes`. -/
def fieldNeedsQuotes (field : String) : Bool :=
  if field = "" then false
  else if field = "\\." then true
  else if field.data.any (fun c => c == '\n' || c == '\r' || c == '"' || c == ',') then true
  else match field.data.head? with
    | some r1 => isSpace r1
    | none => false

/-- The bytes `Writer.Write` emits for one field: the field itself, or, when it
needs quotes, the field between quotes with every quote doubled (carriage
returns and line feeds are written as they are, `UseCRLF` being false). -/
def writeField (field : String) : List Char :=
  if fieldNeedsQuotes field then
    ['"'] ++ field.data.flatMap (fun c => if c = '"' then ['"', '"'] else [c]) ++ ['"']
  else field.data

/-- The loop of `Writer.Write` over the fields: a comma before every field but
the first. -/
def writeFields : List String → List Char
  | [] => []
  | [field] => writeField field
  | field :: rest => writeField field ++ [','] ++ writeFields rest

/-- `Writer.Write(record)`: the fields separated by commas, then a line feed. -/
def writeRecord (record : List String) : List Char :=
  writeFields record ++ ['\n']

/-! ## The steps of `main` -/

/-- The snapshot load: `os.Open` failing (`none`) or `ReadAll` failing leaves
`previousListings` empty; otherwise every row after the first with at least five
fields is appended. -/
def loadPrevious (file : Option String) : List Listing :=
  match file with
  | none => []
  | some content =>
    match ReadAll content with
    | Except.ok records =>
      if records.length > 1 then
        (records.drop 1).foldl (fun previousListings record =>
          if h : record.length ≥ 5 then
            previousListings ++ [{ Title := record[0], Price := record[1], Mileage := record[2],
                                   City := record[3], Distance := record[4] }]
          else previousListings) []
      else []
    | Except.error _ => []

/-- The record assembly: `maxLen` is the largest of the five lengths; record `i`
takes from each slice its element `i` when there is one. -/
def assembleListings (titles prices mileages cities distances : List String) : List Listing :=
  let maxLen := titles.length
  let maxLen := if prices.length > maxLen then prices.length else maxLen
  let maxLen := if mileages.length > maxLen then mileages.length else maxLen
  let maxLen := if cities.length > maxLen then cities.length else maxLen
  let maxLen := if distances.length > maxLen then distances.length else maxLen
  (List.range maxLen).foldl (fun listings i =>
    let listing : Listing := { Title := "", Price := "", Mileage := "", City := "", Distance := "" }
    let listing := if h : i < titles.length then { listing with Title := titles[i] } else listing
    let listing := if h : i < prices.length then { listing with Price := prices[i] } else listing
    let listing := if h : i < mileages.length then { listing with Mileage := mileages[i] } else listing
    let listing := if h : i < cities.length then { listing with City := cities[i] } else listing
    let listing := if h : i < distances.length then { listing with Distance := distances[i] } else listing
    listings ++ [listing]) []

/-- The content of `listings.csv` after the save step: the header, then one row
per listing, all written through `Writer.Write` and flushed when `main` returns. -/
def snapshotContent (listings : List Listing) : String :=
  let header := ["Title", "Price", "Mileage", "City", "Distance"]
  let rows := listings.map (fun listing =>
    [listing.Title, listing.Price, listing.Mileage, listing.City, listing.Distance])
  String.mk (writeRecord header ++ rows.flatMap writeRecord)

/-- The numbered lines of one section of the change report. -/
def listingLines (listings : List Listing) : String :=
  listings.enum.foldl (fun out il =>
    out ++ toString (il.1 + 1) ++ ". " ++ il.2.Title ++ " | " ++ il.2.Price ++ " | " ++
      il.2.Mileage ++ " | " ++ il.2.City ++ " | " ++ il.2.Distance ++ "\n") ""

/-- The text written to `listing_changes.txt`. -/
def changesText (newListings removedListings : List Listing) (now : String) : String :=
  let out := "Listing Changes - " ++ now ++ "\n"
  let out := out ++ "=====================================\n\n"
  let out :=
    if newListings.length > 0 then
      out ++ "NEW LISTINGS (" ++ toString newListings.length ++ "):\n" ++
        "-------------------\n" ++ listingLines newListings ++ "\n"
    else out
  let out :=
    if removedListings.length > 0 then
      out ++ "REMOVED LISTINGS (" ++ toString removedListings.length ++ "):\n" ++
        "---------------------\n" ++ listingLines removedListings
    else out
  out

/-- The reporting step: what is written to `listing_changes.txt` (`none` when
the file is not created) and the line printed on standard output. -/
def reportChanges (listings newListings removedListings : List Listing) (now : String) :
    Option String × String :=
  if newListings.length > 0 || removedListings.length > 0 then
    (some (changesText newListings removedListings now),
     "Found " ++ toString listings.length ++ " listings, " ++ toString newListings.length ++
       " new, " ++ toString removedListings.length ++
       " removed. Changes saved to listing_changes.txt\n")
  else
    (none, "Found " ++ toString listings.length ++ " listings, no changes detected\n")

/-- The two files the program keeps between runs; `none` is a file that does
not exist. -/
structure Files where
  listingsCsv : Option String
  changesTxt : Option String

/-- One run of `main` in which every step succeeds (`chromedp.Run` has filled
the five slices, `os.Create` and the writes return no error): the files left
behind and the line printed.  `now` is `time.Now()` in the layout of the report. -/
def mainRun (files : Files) (titles prices mileages cities distances : List String)
    (now : String) : Files × String :=
  let previousListings := loadPrevious files.listingsCsv
  let listings := assembleListings titles prices mileages cities distances
  let saved := snapshotContent listings
  let cmp := compareListings previousListings listings
  let rep := reportChanges listings cmp.1 cmp.2 now
  ({ listingsCsv := some saved,
     changesTxt := match rep.1 with
       | some text => some text
       | none => files.changesTxt },
   rep.2)

/-! ## Runs in which a step fails

`main` ends a run with `log.Fatal(err)`, which calls `os.Exit(1)`: the process
stops at once and the deferred `writer.Flush()` and `file.Close()` are not run.
The rows handed to `writer.Write` go through the `bufio.Writer` of 4096 bytes
that `csv.NewWriter` sets up; they reach the file when the buffer overflows or
on `Flush`.  When `main` returns, the deferred `writer.Flush()` runs, and the
error it may meet is never read (`writer.Error()` is not called).  A file that
a run leaves unfinished can end inside a character, so here `listings.csv` is
the sequence of its bytes. -/

/-- How a run ends: `main` returns, or `log.Fatal` exits the process. -/
inductive Exit where
  | returned
  | fatal
deriving DecidableEq, Repr

/-- The UTF-8 bytes of a character. -/
def utf8Char (c : Char) : List Nat :=
  let n := c.toNat
  if n < 0x80 then [n]
  else if n < 0x800 then [0xC0 + n / 0x40, 0x80 + n % 0x40]
  else if n < 0x10000 then [0xE0 + n / 0x1000, 0x80 + n / 0x40 % 0x40, 0x80 + n % 0x40]
  else [0xF0 + n / 0x40000, 0x80 + n / 0x1000 % 0x40, 0x80 + n / 0x40 % 0x40, 0x80 + n % 0x40]

/-- The bytes of a Go string, given as its characters. -/
def utf8Bytes (s : List Char) : List Nat :=
  s.flatMap utf8Char

/-- What the operating system does to a run: whether `os.Create("listings.csv")`
fails, which call of `writer.Write` (the header is call 0) is the first to
return an error, whether `os.Create("listing_changes.txt")` fails, whether the
deferred `writer.Flush()` fails, and how many bytes of the rows `listings.csv`
has taken when not all of them reach it (after the buffer has overflowed in a
run that is stopped, or when `Flush` fails). -/
structure Env where
  createSnapshotFails : Bool
  writeFails : Option Nat
  createReportFails : Bool
  flushFails : Bool
  taken : Nat

/-- The end of a run: how it ended, the bytes of `listings.csv`, the content of
`listing_changes.txt`, and what was printed; `none` is a file that does not
exist. -/
structure Outcome where
  exit : Exit
  listingsCsv : Option (List Nat)
  changesTxt : Option String
  stdout : String

/-- The size of the buffer of `bufio.NewWriter`. -/
def bufferSize : Nat := 4096

/-- The bytes of `listings.csv` when the process is stopped by `log.Fatal` after
`handed` has been written through the buffered writer: `os.Create` has emptied
the file, and nothing has reached it as long as `handed` fits the buffer; past
that, the first `taken` bytes have. -/
def visibleAtExit (handed : List Char) (taken : Nat) : List Nat :=
  if (utf8Bytes handed).length ≤ bufferSize then []
  else (utf8Bytes handed).take taken

/-- The bytes of `listings.csv` after the deferred `writer.Flush()`: all of
`content`, or its first `taken` bytes when the flush fails. -/
def afterFlush (content : List Char) (env : Env) : List Nat :=
  if env.flushFails then (utf8Bytes content).take env.taken
  else utf8Bytes content

/-- The call of `writer.Write` that returns an error, if any: a call can only
fail when it makes the buffer overflow, so that bytes go to the file. -/
def failingWrite (env : Env) (rows : List (List String)) : Option Nat :=
  match env.writeFails with
  | none => none
  | some k =>
    if k < rows.length ∧
        bufferSize < (utf8Bytes ((rows.take (k + 1)).flatMap writeRecord)).length then
      some k
    else none

/-- One run of `main` from the point where `chromedp.Run` has filled the five
slices, with the failures `env` brings. -/
def runMain (env : Env) (files : Files) (titles prices mileages cities distances : List String)
    (now : String) : Outcome :=
  let previousListings := loadPrevious files.listingsCsv
  let listings := assembleListings titles prices mileages cities distances
  if env.createSnapshotFails then
    -- `os.Create("listings.csv")` fails: `log.Fatal`, nothing has been touched
    { exit := Exit.fatal,
      listingsCsv := files.listingsCsv.map (fun content => utf8Bytes content.data),
      changesTxt := files.changesTxt, stdout := "" }
  else
    let header := ["Title", "Price", "Mileage", "City", "Distance"]
    let rows := header :: listings.map (fun listing =>
      [listing.Title, listing.Price, listing.Mileage, listing.City, listing.Distance])
    match failingWrite env rows with
    | some k =>
      -- `writer.Write` returns an error: `log.Fatal`
      { exit := Exit.fatal,
        listingsCsv := some (visibleAtExit ((rows.take (k + 1)).flatMap writeRecord) env.taken),
        changesTxt := files.changesTxt, stdout := "" }
    | none =>
      let cmp := compareListings previousListings listings
      let rep := reportChanges listings cmp.1 cmp.2 now
      match rep.1 with
      | some text =>
        if env.createReportFails then
          -- `os.Create("listing_changes.txt")` fails: `log.Fatal`, no deferred `Flush`
          { exit := Exit.fatal,
            listingsCsv := some (visibleAtExit (rows.flatMap writeRecord) env.taken),
            changesTxt := files.changesTxt, stdout := "" }
        else
          -- `main` returns: the deferred `Flush` runs, its error is not read
          { exit := Exit.returned,
            listingsCsv := some (afterFlush (rows.flatMap writeRecord) env),
            changesTxt := some text, stdout := rep.2 }
      | none =>
        { exit := Exit.returned,
          listingsCsv := some (afterFlush (rows.flatMap writeRecord) env),
          changesTxt := files.changesTxt, stdout := rep.2 }

/-! ## Definitions used to state and prove the properties -/

/-- The reader has returned. -/
def ReaderState.isFinished (st : ReaderState) : Bool :=
  match st.phase with
  | Phase.finished _ => true
  | _ => false

/-- The reader, started in `st`, returns `result` after some number of passes. -/
def Returns (st : ReaderState) (result : Except CsvError (List (List String))) : Prop :=
  ∃ n, (runReader n st).phase = Phase.finished result

/-- A bound on the number of passes left, in terms of the unread input and the
rest of the current line. -/
def passesLeft (st : ReaderState) : Nat :=
  match st.phase with
  | Phase.finished _ => 0
  | Phase.recordStart => 3 * st.inp.length + 1
  | Phase.fieldStart line => 3 * st.inp.length + line.length + 2
  | Phase.inQuotes line => 3 * st.inp.length + line.length + 2

/-- The first line of a character stream, with its line feed. -/
def firstLine : List Char → List Char
  | [] => []
  | c :: s => if c = '\n' then [c] else c :: firstLine s

/-- What follows the first line of a character stream. -/
def afterLine : List Char → List Char
  | [] => []
  | c :: s => if c = '\n' then s else afterLine s

/-- No carriage return is immediately followed by a line feed. -/
def noCRLF : List Char → Bool
  | [] => true
  | c :: s => !(c == '\r' && s.head? == some '\n') && noCRLF s

/-- The reader inside a quoted field, positioned at the stream `s`. -/
def atQuoted (s : List Char) (fpr : Nat) (records : List (List String)) (fields : List String)
    (buf : List Char) : ReaderState :=
  { phase := Phase.inQuotes (firstLine s), inp := afterLine s, fieldsPerRecord := fpr,
    records := records, fields := fields, buf := buf }

/-- The reader at the start of a field, positioned at the stream `s`. -/
def atField (s : List Char) (fpr : Nat) (records : List (List String)) (fields : List String) :
    ReaderState :=
  { phase := Phase.fieldStart (firstLine s), inp := afterLine s, fieldsPerRecord := fpr,
    records := records, fields := fields, buf := [] }

/-- The reader about to read a record, positioned at the stream `s`. -/
def atRecord (s : List Char) (fpr : Nat) (records : List (List String)) : ReaderState :=
  { phase := Phase.recordStart, inp := s, fieldsPerRecord := fpr,
    records := records, fields := [], buf := [] }

/-- The five fields of a listing, in the order of the snapshot columns. -/
def Listing.toRecord (listing : Listing) : List String :=
  [listing.Title, listing.Price, listing.Mileage, listing.City, listing.Distance]

/-- The listing a stored row stands for: its first five fields, when it has
that many. -/
def rowListing (record : List String) : Option Listing :=
  match record with
  | a :: b :: c :: d :: e :: _ =>
    some { Title := a, Price := b, Mileage := c, City := d, Distance := e }
  | _ => none

/-- The string contains a carriage return immediately followed by a line feed. -/
def containsCRLF (s : String) : Prop := ['\r', '\n'] <:+: s.data

/-- The numbered lines of a report section as the report format gives them: one
line per record, numbered from 1 in order, the five fields separated by
vertical bars. -/
def numberedLines (listings : List Listing) : String :=
  String.join (List.zipWith (fun k listing =>
    toString k ++ ". " ++ listing.Title ++ " | " ++ listing.Price ++ " | " ++
      listing.Mileage ++ " | " ++ listing.City ++ " | " ++ listing.Distance ++ "\n")
    (List.range' 1 listings.length) listings)

/-- The change report as the report format gives it. -/
def reportFormat (added removed : List Listing) (timestamp : String) : String :=
  "Listing Changes - " ++ timestamp ++ "\n" ++
  String.mk (List.replicate 37 '=') ++ "\n" ++
  "\n" ++
  (if added = [] then ""
   else "NEW LISTINGS (" ++ toString added.length ++ "):\n" ++
     String.mk (List.replicate 19 '-') ++ "\n" ++ numberedLines added ++ "\n") ++
  (if removed = [] then ""
   else "REMOVED LISTINGS (" ++ toString removed.length ++ "):\n" ++
     String.mk (List.replicate 21 '-') ++ "\n" ++ numberedLines removed)

/-- The summary line states the three counts, in the wording the scenario of the
specification gives: it contains `<total> listings, <added> new, <removed> removed.` -/
def statesCounts (summary : String) (total added removed : Nat) : Prop :=
  (toString total ++ " listings, " ++ toString added ++ " new, " ++ toString removed ++
    " removed.").data <:+: summary.data

/-! ## Lemmas on `compareListings` -/

theorem foundIn_iff (x : Listing) (ys : List Listing) :
    foundIn x ys = true ↔
      ∃ y ∈ ys, x.Title = y.Title ∧ x.Price = y.Price ∧ x.Mileage = y.Mileage := by
  induction ys with
  | nil => simp [foundIn]
  | cons y rest ih =>
    by_cases h : x.Title = y.Title ∧ x.Price = y.Price ∧ x.Mileage = y.Mileage
    · simp [foundIn, h]
    · have h2 : ¬ (x.Title = y.Title ∧ x.Price = y.Price ∧ x.Mileage = y.Mileage) := h
      simp only [foundIn, Bool.and_eq_true, beq_iff_eq, List.mem_cons, exists_eq_or_imp]
      rw [if_neg (by simpa [and_assoc] using h2), ih]
      simp [h2]

theorem foldl_append_if {α : Type} (p : α → Bool) (xs init : List α) :
    xs.foldl (fun acc x => if p x then acc ++ [x] else acc) init = init ++ xs.filter p := by
  induction xs generalizing init with
  | nil => simp
  | cons x rest ih =>
    simp only [List.foldl_cons, List.filter_cons]
    by_cases h : p x = true <;> simp [h, ih]

theorem compareListings_fst (previous current : List Listing) :
    (compareListings previous current).1 = current.filter (fun c => !(foundIn c previous)) := by
  have h := foldl_append_if (fun c => !(foundIn c previous)) current []
  simpa [compareListings] using h

theorem compareListings_snd (previous current : List Listing) :
    (compareListings previous current).2 = previous.filter (fun p => !(foundIn p current)) := by
  have h := foldl_append_if (fun p => !(foundIn p current)) previous []
  simpa [compareListings] using h

theorem foundIn_iff_key (a : Listing) (l : List Listing) :
    foundIn a l = true ↔ keyOf a ∈ l.map keyOf := by
  rw [foundIn_iff]
  simp only [List.mem_map, keyOf, Prod.mk.injEq]
  constructor
  · rintro ⟨y, hy, h1, h2, h3⟩
    exact ⟨y, hy, h1.symm, h2.symm, h3.symm⟩
  · rintro ⟨y, hy, h1, h2, h3⟩
    exact ⟨y, hy, h1.symm, h2.symm, h3.symm⟩

theorem foundIn_congr_keys (x x2 : Listing) (ys ys2 : List Listing)
    (hx : keyOf x = keyOf x2) (h : ∀ k, k ∈ ys.map keyOf ↔ k ∈ ys2.map keyOf) :
    foundIn x ys = foundIn x2 ys2 := by
  rw [Bool.eq_iff_iff, foundIn_iff_key, foundIn_iff_key, hx, h]

theorem forall₂_left_mem {α β : Type} {R : α → β → Prop} {l1 : List α} {l2 : List β}
    (h : List.Forall₂ R l1 l2) : ∀ a ∈ l1, ∃ b ∈ l2, R a b := by
  induction h with
  | nil => simp
  | cons hab _ ih =>
    intro a ha
    rcases List.mem_cons.1 ha with rfl | ha
    · exact ⟨_, List.mem_cons_self _ _, hab⟩
    · obtain ⟨b, hb, hr⟩ := ih a ha
      exact ⟨b, List.mem_cons_of_mem _ hb, hr⟩

theorem forall₂_right_mem {α β : Type} {R : α → β → Prop} {l1 : List α} {l2 : List β}
    (h : List.Forall₂ R l1 l2) : ∀ b ∈ l2, ∃ a ∈ l1, R a b := by
  induction h with
  | nil => simp
  | cons hab _ ih =>
    intro b hb
    rcases List.mem_cons.1 hb with rfl | hb
    · exact ⟨_, List.mem_cons_self _ _, hab⟩
    · obtain ⟨a, ha, hr⟩ := ih b hb
      exact ⟨a, List.mem_cons_of_mem _ ha, hr⟩

/-! ## Claims on `compareListings` -/

/-- C1: `compareListings previous current` returns as added exactly the records
of `current`, in order, that no record of `previous` matches on Title, Price and
Mileage, and as removed exactly the records of `previous`, in order, that no
record of `current` matches. -/
theorem compareListings_spec (previous current : List Listing) :
    compareListings previous current =
      (current.filter (fun c => decide (∀ p ∈ previous,
          ¬ (p.Title = c.Title ∧ p.Price = c.Price ∧ p.Mileage = c.Mileage))),
       previous.filter (fun p => decide (∀ c ∈ current,
          ¬ (c.Title = p.Title ∧ c.Price = p.Price ∧ c.Mileage = p.Mileage)))) := by
  have hfilter : ∀ (xs others : List Listing),
      xs.filter (fun x => !(foundIn x others)) =
        xs.filter (fun x => decide (∀ o ∈ others,
          ¬ (o.Title = x.Title ∧ o.Price = x.Price ∧ o.Mileage = x.Mileage))) := by
    intro xs others
    apply List.filter_congr
    intro x _
    rw [Bool.eq_iff_iff]
    simp only [Bool.not_eq_true', decide_eq_true_eq]
    rw [← Bool.not_eq_true, foundIn_iff]
    constructor
    · intro hno o ho hk
      exact hno ⟨o, ho, hk.1.symm, hk.2.1.symm, hk.2.2.symm⟩
    · rintro hall ⟨o, ho, h1, h2, h3⟩
      exact hall o ho ⟨h1.symm, h2.symm, h3.symm⟩
  apply Prod.ext
  · rw [compareListings_fst]; exact hfilter current previous
  · rw [compareListings_snd]; exact hfilter previous current

/-- C2: comparing a record list with itself reports nothing added and nothing
removed. -/
theorem compareListings_self (A : List Listing) : compareListings A A = ([], []) := by
  have h : A.filter (fun x => !(foundIn x A)) = [] := by
    rw [List.filter_eq_nil_iff]
    intro x hx
    have : foundIn x A = true := (foundIn_iff x A).2 ⟨x, hx, rfl, rfl, rfl⟩
    simp [this]
  apply Prod.ext
  · rw [compareListings_fst]; exact h
  · rw [compareListings_snd]; exact h

/-- C3: with an empty previous list, every current record is added, in order,
and nothing is removed. -/
theorem compareListings_nil_previous (current : List Listing) :
    compareListings [] current = (current, []) := by
  apply Prod.ext
  · rw [compareListings_fst]; simp [foundIn]
  · rw [compareListings_snd]; simp

/-- C4: records that agree on Title, Price and Mileage are never reported,
whatever their City and Distance: such a `c` is not in added and such a `p` is
not in removed; and if `current` is `previous` with only City and Distance
changed (position by position), both results are empty. -/
theorem compareListings_ignores_city_distance (previous current : List Listing) :
    (∀ p ∈ previous, ∀ c ∈ current,
        p.Title = c.Title → p.Price = c.Price → p.Mileage = c.Mileage →
        c ∉ (compareListings previous current).1 ∧ p ∉ (compareListings previous current).2) ∧
    (List.Forall₂ (fun p c => p.Title = c.Title ∧ p.Price = c.Price ∧ p.Mileage = c.Mileage)
        previous current → compareListings previous current = ([], [])) := by
  constructor
  · intro p hp c hc h1 h2 h3
    rw [compareListings_fst, compareListings_snd]
    have hcf : foundIn c previous = true :=
      (foundIn_iff c previous).2 ⟨p, hp, h1.symm, h2.symm, h3.symm⟩
    have hpf : foundIn p current = true := (foundIn_iff p current).2 ⟨c, hc, h1, h2, h3⟩
    simp [List.mem_filter, hcf, hpf]
  · intro hall
    apply Prod.ext
    · rw [compareListings_fst]
      simp only [List.filter_eq_nil_iff]
      intro c hc
      obtain ⟨p, hp, hk⟩ := forall₂_right_mem hall c hc
      have : foundIn c previous = true :=
        (foundIn_iff c previous).2 ⟨p, hp, hk.1.symm, hk.2.1.symm, hk.2.2.symm⟩
      simp [this]
    · rw [compareListings_snd]
      simp only [List.filter_eq_nil_iff]
      intro p hp
      obtain ⟨c, hc, hk⟩ := forall₂_left_mem hall p hp
      have : foundIn p current = true := (foundIn_iff p current).2 ⟨c, hc, hk⟩
      simp [this]

/-- C4 witness: one record whose City and Distance changed. -/
theorem compareListings_ignores_city_distance_witness :
    (({ Title := "Camry", Price := "1", Mileage := "2", City := "Rome", Distance := "9" } : Listing) ∉
        (compareListings
          [{ Title := "Camry", Price := "1", Mileage := "2", City := "Athens", Distance := "5" }]
          [{ Title := "Camry", Price := "1", Mileage := "2", City := "Rome", Distance := "9" }]).1 ∧
      ({ Title := "Camry", Price := "1", Mileage := "2", City := "Athens", Distance := "5" } : Listing) ∉
        (compareListings
          [{ Title := "Camry", Price := "1", Mileage := "2", City := "Athens", Distance := "5" }]
          [{ Title := "Camry", Price := "1", Mileage := "2", City := "Rome", Distance := "9" }]).2) ∧
    compareListings
      [{ Title := "Camry", Price := "1", Mileage := "2", City := "Athens", Distance := "5" }]
      [{ Title := "Camry", Price := "1", Mileage := "2", City := "Rome", Distance := "9" }] = ([], []) :=
  ⟨(compareListings_ignores_city_distance _ _).1 _ (List.mem_singleton.2 rfl) _
      (List.mem_singleton.2 rfl) rfl rfl rfl,
   (compareListings_ignores_city_distance _ _).2
      (List.Forall₂.cons ⟨rfl, rfl, rfl⟩ List.Forall₂.nil)⟩

/-- C5: the added result depends on `previous` only through its set of keys, the
removed result depends on `current` only through its set of keys (order and
multiplicity do not matter), and a key that occurs twice in `previous` and once
in `current` is the key of no removed record. -/
theorem compareListings_keyset_insensitive (previous previous2 current current2 : List Listing) :
    ((∀ k, k ∈ previous.map keyOf ↔ k ∈ previous2.map keyOf) →
        (compareListings previous current).1 = (compareListings previous2 current).1) ∧
    ((∀ k, k ∈ current.map keyOf ↔ k ∈ current2.map keyOf) →
        (compareListings previous current).2 = (compareListings previous current2).2) ∧
    (∀ k, (previous.map keyOf).count k = 2 → (current.map keyOf).count k = 1 →
        ∀ r ∈ (compareListings previous current).2, keyOf r ≠ k) := by
  refine ⟨?_, ?_, ?_⟩
  · intro h
    rw [compareListings_fst, compareListings_fst]
    apply List.filter_congr
    intro c _
    rw [foundIn_congr_keys c c previous previous2 rfl h]
  · intro h
    rw [compareListings_snd, compareListings_snd]
    apply List.filter_congr
    intro p _
    rw [foundIn_congr_keys p p current current2 rfl h]
  · intro k _ hc r hr hk
    rw [compareListings_snd, List.mem_filter] at hr
    have hmem : k ∈ current.map keyOf := by
      apply List.count_pos_iff.1
      omega
    obtain ⟨c, hcm, hck⟩ := List.mem_map.1 hmem
    have hf : foundIn r current = true := by
      rw [foundIn_iff]
      refine ⟨c, hcm, ?_⟩
      have : keyOf r = keyOf c := by rw [hk, hck]
      simpa [keyOf] using this
    simp [hf] at hr

/-- C5 witness: a key twice in `previous` and once in `current`. -/
theorem compareListings_keyset_insensitive_witness :
    (compareListings
        [{ Title := "a", Price := "1", Mileage := "2", City := "x", Distance := "y" },
         { Title := "a", Price := "1", Mileage := "2", City := "u", Distance := "v" }]
        [{ Title := "a", Price := "1", Mileage := "2", City := "x", Distance := "y" }]).1 =
      (compareListings
        [{ Title := "a", Price := "1", Mileage := "2", City := "x", Distance := "y" }]
        [{ Title := "a", Price := "1", Mileage := "2", City := "x", Distance := "y" }]).1 ∧
    (compareListings
        [{ Title := "a", Price := "1", Mileage := "2", City := "x", Distance := "y" },
         { Title := "a", Price := "1", Mileage := "2", City := "u", Distance := "v" }]
        [{ Title := "a", Price := "1", Mileage := "2", City := "x", Distance := "y" }]).2 =
      (compareListings
        [{ Title := "a", Price := "1", Mileage := "2", City := "x", Distance := "y" },
         { Title := "a", Price := "1", Mileage := "2", City := "u", Distance := "v" }]
        [{ Title := "a", Price := "1", Mileage := "2", City := "p", Distance := "q" },
         { Title := "a", Price := "1", Mileage := "2", City := "x", Distance := "y" }]).2 ∧
    ∀ r ∈ (compareListings
        [{ Title := "a", Price := "1", Mileage := "2", City := "x", Distance := "y" },
         { Title := "a", Price := "1", Mileage := "2", City := "u", Distance := "v" }]
        [{ Title := "a", Price := "1", Mileage := "2", City := "x", Distance := "y" }]).2,
      keyOf r ≠ ("a", "1", "2") := by
  have h := compareListings_keyset_insensitive
    [{ Title := "a", Price := "1", Mileage := "2", City := "x", Distance := "y" },
     { Title := "a", Price := "1", Mileage := "2", City := "u", Distance := "v" }]
    [{ Title := "a", Price := "1", Mileage := "2", City := "x", Distance := "y" }]
    [{ Title := "a", Price := "1", Mileage := "2", City := "x", Distance := "y" }]
    [{ Title := "a", Price := "1", Mileage := "2", City := "p", Distance := "q" },
     { Title := "a", Price := "1", Mileage := "2", City := "x", Distance := "y" }]
  exact ⟨h.1 (by intro k; simp [keyOf]), h.2.1 (by intro k; simp [keyOf]),
    h.2.2 ("a", "1", "2") (by decide) (by decide)⟩

/-! ## The record assembly -/

theorem foldl_range_append {α : Type} (f : Nat → α) (n : Nat) (init : List α) :
    (List.range n).foldl (fun acc i => acc ++ [f i]) init = init ++ (List.range n).map f := by
  induction n with
  | zero => simp
  | succ n ih => simp [List.range_succ, List.foldl_append, ih]

/-- The record the assembly loop builds at index `i`. -/
theorem assembleListings_eq (titles prices mileages cities distances : List String) :
    assembleListings titles prices mileages cities distances =
      (List.range (max (max (max (max titles.length prices.length) mileages.length)
          cities.length) distances.length)).map (fun i =>
        { Title := titles.getD i "", Price := prices.getD i "", Mileage := mileages.getD i "",
          City := cities.getD i "", Distance := distances.getD i "" }) := by
  unfold assembleListings
  simp only []
  rw [foldl_range_append]
  have hmax : (if distances.length > (if cities.length > (if mileages.length >
      (if prices.length > titles.length then prices.length else titles.length) then
      mileages.length else (if prices.length > titles.length then prices.length
      else titles.length)) then cities.length else (if mileages.length >
      (if prices.length > titles.length then prices.length else titles.length) then
      mileages.length else (if prices.length > titles.length then prices.length
      else titles.length))) then distances.length else (if cities.length > (if mileages.length >
      (if prices.length > titles.length then prices.length else titles.length) then
      mileages.length else (if prices.length > titles.length then prices.length
      else titles.length)) then cities.length else (if mileages.length >
      (if prices.length > titles.length then prices.length else titles.length) then
      mileages.length else (if prices.length > titles.length then prices.length
      else titles.length)))) =
      max (max (max (max titles.length prices.length) mileages.length)
          cities.length) distances.length := by
    split_ifs <;> omega
  rw [hmax, List.nil_append]
  apply List.map_congr_left
  intro i _
  by_cases h1 : i < titles.length <;> by_cases h2 : i < prices.length <;>
    by_cases h3 : i < mileages.length <;> by_cases h4 : i < cities.length <;>
    by_cases h5 : i < distances.length <;>
    simp [h1, h2, h3, h4, h5, List.getD_eq_getElem?_getD, List.getElem?_eq_getElem,
      List.getElem?_eq_none, Nat.le_of_not_lt]

/-- C6: the assembled list has as many records as the longest of the five
slices, and record `i` holds, field by field, element `i` of the slice of that
field when the slice is long enough and the empty string otherwise; the function
is total, so no length mismatch raises an error; five empty slices give the
empty list. -/
theorem assembleListings_ragged (titles prices mileages cities distances : List String) :
    (assembleListings titles prices mileages cities distances).length =
      max (max (max (max titles.length prices.length) mileages.length) cities.length)
        distances.length ∧
    (∀ i, i < (assembleListings titles prices mileages cities distances).length →
      (assembleListings titles prices mileages cities distances)[i]? =
        some { Title := if h : i < titles.length then titles[i] else "",
               Price := if h : i < prices.length then prices[i] else "",
               Mileage := if h : i < mileages.length then mileages[i] else "",
               City := if h : i < cities.length then cities[i] else "",
               Distance := if h : i < distances.length then distances[i] else "" }) ∧
    assembleListings [] [] [] [] [] = [] := by
  refine ⟨?_, ?_, rfl⟩
  · rw [assembleListings_eq]
    simp
  rw [assembleListings_eq]
  intro i hi
  simp only [List.length_map, List.length_range] at hi
  rw [List.getElem?_map, List.getElem?_range hi]
  simp only [Option.map_some']
  congr 1
  by_cases h1 : i < titles.length <;> by_cases h2 : i < prices.length <;>
    by_cases h3 : i < mileages.length <;> by_cases h4 : i < cities.length <;>
    by_cases h5 : i < distances.length <;>
    simp [h1, h2, h3, h4, h5, List.getD_eq_getElem?_getD, List.getElem?_eq_getElem,
      List.getElem?_eq_none, Nat.le_of_not_lt]

/-- C6 witness: slices of lengths 3, 1, 0, 2 and 5 give five records, the last
of which has only its Distance set. -/
theorem assembleListings_ragged_witness :
    (assembleListings ["a", "b", "c"] ["1"] [] ["x", "y"] ["p", "q", "r", "s", "t"]).length = 5 ∧
    (assembleListings ["a", "b", "c"] ["1"] [] ["x", "y"] ["p", "q", "r", "s", "t"])[4]? =
      some { Title := "", Price := "", Mileage := "", City := "", Distance := "t" } :=
  ⟨(assembleListings_ragged ["a", "b", "c"] ["1"] [] ["x", "y"] ["p", "q", "r", "s", "t"]).1,
   (assembleListings_ragged ["a", "b", "c"] ["1"] [] ["x", "y"] ["p", "q", "r", "s", "t"]).2.1 4
     (by decide)⟩

/-! ## The reporting step -/

theorem compareListings_eq_nil_of_keys (previous current : List Listing)
    (h : ∀ k, k ∈ previous.map keyOf ↔ k ∈ current.map keyOf) :
    compareListings previous current = ([], []) := by
  apply Prod.ext
  · rw [compareListings_fst]
    simp only [List.filter_eq_nil_iff]
    intro c hc
    have : foundIn c previous = true :=
      (foundIn_iff_key c previous).2 ((h _).2 (List.mem_map_of_mem keyOf hc))
    simp [this]
  · rw [compareListings_snd]
    simp only [List.filter_eq_nil_iff]
    intro p hp
    have : foundIn p current = true :=
      (foundIn_iff_key p current).2 ((h _).1 (List.mem_map_of_mem keyOf hp))
    simp [this]

/-- C10: when `previous` and `current` hold the same set of keys, the reporting
step takes the no-changes branch: nothing is written to `listing_changes.txt`
and the line printed is the no-changes line; in a whole run the file
`listing_changes.txt` is left as it was. -/
theorem no_report_when_keys_equal :
    (∀ (previous current : List Listing) (now : String),
      (∀ k, k ∈ previous.map keyOf ↔ k ∈ current.map keyOf) →
      reportChanges current (compareListings previous current).1
          (compareListings previous current).2 now =
        (none, "Found " ++ toString current.length ++ " listings, no changes detected\n")) ∧
    (∀ (files : Files) (titles prices mileages cities distances : List String) (now : String),
      (∀ k, k ∈ (loadPrevious files.listingsCsv).map keyOf ↔
          k ∈ (assembleListings titles prices mileages cities distances).map keyOf) →
      (mainRun files titles prices mileages cities distances now).1.changesTxt =
          files.changesTxt ∧
      (mainRun files titles prices mileages cities distances now).2 =
        "Found " ++ toString (assembleListings titles prices mileages cities distances).length ++
          " listings, no changes detected\n") := by
  constructor
  · intro previous current now h
    rw [compareListings_eq_nil_of_keys previous current h]
    simp [reportChanges]
  · intro files titles prices mileages cities distances now h
    simp only [mainRun]
    rw [compareListings_eq_nil_of_keys _ _ h]
    simp [reportChanges]

/-- C10 witness: the stored snapshot and the scraped page hold the same listing,
with a different City. -/
theorem no_report_when_keys_equal_witness :
    reportChanges
        [{ Title := "a", Price := "1", Mileage := "2", City := "x", Distance := "y" }]
        (compareListings
          [{ Title := "a", Price := "1", Mileage := "2", City := "u", Distance := "v" },
           { Title := "a", Price := "1", Mileage := "2", City := "x", Distance := "y" }]
          [{ Title := "a", Price := "1", Mileage := "2", City := "x", Distance := "y" }]).1
        (compareListings
          [{ Title := "a", Price := "1", Mileage := "2", City := "u", Distance := "v" },
           { Title := "a", Price := "1", Mileage := "2", City := "x", Distance := "y" }]
          [{ Title := "a", Price := "1", Mileage := "2", City := "x", Distance := "y" }]).2
        "2024-05-01 10:00:00" =
      (none, "Found 1 listings, no changes detected\n") ∧
    (mainRun { listingsCsv := none, changesTxt := some "old" } [] [] [] [] []
        "2024-05-01 10:00:00").1.changesTxt = some "old" ∧
    (mainRun { listingsCsv := none, changesTxt := some "old" } [] [] [] [] []
        "2024-05-01 10:00:00").2 = "Found 0 listings, no changes detected\n" := by
  have h1 := no_report_when_keys_equal.1
    [{ Title := "a", Price := "1", Mileage := "2", City := "u", Distance := "v" },
     { Title := "a", Price := "1", Mileage := "2", City := "x", Distance := "y" }]
    [{ Title := "a", Price := "1", Mileage := "2", City := "x", Distance := "y" }]
    "2024-05-01 10:00:00" (by intro k; simp [keyOf])
  have h2 := no_report_when_keys_equal.2 { listingsCsv := none, changesTxt := some "old" }
    [] [] [] [] [] "2024-05-01 10:00:00" (by intro k; simp [loadPrevious, assembleListings])
  exact ⟨h1, h2.1, h2.2⟩

/-! ## The reader: running and returning -/

theorem step_finished (st : ReaderState) (r : Except CsvError (List (List String)))
    (h : st.phase = Phase.finished r) : step st = st := by
  simp [step, h]

theorem runReader_finished (n : Nat) (st : ReaderState)
    (r : Except CsvError (List (List String))) (h : st.phase = Phase.finished r) :
    runReader n st = st := by
  cases n with
  | zero => rfl
  | succ n => simp [runReader, h]

theorem runReader_succ (n : Nat) (st : ReaderState) :
    runReader (n + 1) st = runReader n (step st) := by
  cases hp : st.phase with
  | finished r =>
    rw [step_finished st r hp, runReader_finished _ st r hp, runReader_finished _ st r hp]
  | recordStart => simp [runReader, hp]
  | fieldStart line => simp [runReader, hp]
  | inQuotes line => simp [runReader, hp]

theorem runReader_add (n m : Nat) (st : ReaderState) :
    runReader (n + m) st = runReader m (runReader n st) := by
  induction n generalizing st with
  | zero => simp [runReader]
  | succ n ih =>
    rw [show n + 1 + m = (n + m) + 1 by omega, runReader_succ, runReader_succ, ih]

theorem returns_step (st : ReaderState) (r : Except CsvError (List (List String))) :
    Returns (step st) r ↔ Returns st r := by
  constructor
  · rintro ⟨n, hn⟩
    exact ⟨n + 1, by rw [runReader_succ]; exact hn⟩
  · rintro ⟨n, hn⟩
    cases n with
    | zero =>
      have h0 : st.phase = Phase.finished r := hn
      exact ⟨0, by rw [step_finished st r h0]; exact h0⟩
    | succ n => exact ⟨n, by rw [← runReader_succ]; exact hn⟩

theorem returns_of_step_eq (a b : ReaderState) (r : Except CsvError (List (List String)))
    (h : step a = step b) : Returns a r ↔ Returns b r := by
  rw [← returns_step a, ← returns_step b, h]

theorem returns_finished (st : ReaderState) (r : Except CsvError (List (List String)))
    (h : st.phase = Phase.finished r) : Returns st r :=
  ⟨0, h⟩

theorem returns_unique (st : ReaderState) (r r2 : Except CsvError (List (List String)))
    (h : Returns st r) (h2 : Returns st r2) : r = r2 := by
  obtain ⟨n, hn⟩ := h
  obtain ⟨m, hm⟩ := h2
  have key : ∀ a b : Nat, a ≤ b → ∀ ra rb, (runReader a st).phase = Phase.finished ra →
      (runReader b st).phase = Phase.finished rb → ra = rb := by
    intro a b hab ra rb ha hb
    obtain ⟨d, rfl⟩ := Nat.exists_eq_add_of_le hab
    rw [runReader_add, runReader_finished d _ ra ha, ha] at hb
    injection hb
  rcases Nat.le_total n m with hle | hle
  · exact key n m hle r r2 hn hm
  · exact (key m n hle r2 r hm hn).symm

/-! ## The reader: termination -/

theorem readLine_eof (inp : List Char) : (readLine inp).2.1 = true ↔ inp = [] := by
  have hsplit := List.takeWhile_append_dropWhile (fun c => c != '\n') inp
  cases hd : inp.dropWhile (fun c => c != '\n') with
  | nil =>
    rw [hd, List.append_nil] at hsplit
    simp only [readLine, hd, hsplit]
    cases inp <;> simp
  | cons nl rest =>
    have : inp ≠ [] := by
      intro h0; rw [h0] at hd; simp at hd
    simp [readLine, hd, this]

theorem readLine_length (inp : List Char) :
    (readLine inp).1.length + (readLine inp).2.2.length ≤ inp.length ∧
    (inp ≠ [] → (readLine inp).2.2.length < inp.length) := by
  have hsplit := List.takeWhile_append_dropWhile (fun c => c != '\n') inp
  have hlen : inp.length = (inp.takeWhile (fun c => c != '\n')).length +
      (inp.dropWhile (fun c => c != '\n')).length := by
    rw [← List.length_append, hsplit]
  cases hd : inp.dropWhile (fun c => c != '\n') with
  | nil =>
    rw [hd, List.append_nil] at hsplit
    clear hlen
    simp only [readLine, hd, hsplit]
    constructor
    · simp only [List.tail_nil, List.length_nil, Nat.add_zero]
      split_ifs <;> simp only [List.length_dropLast, List.length_append, List.length_singleton,
        List.length_nil] at * <;> omega
    · intro hne
      simp only [List.tail_nil, List.length_nil]
      exact List.length_pos.2 hne
  | cons nl rest =>
    rw [hd] at hlen
    simp only [List.length_cons] at hlen
    simp only [readLine, hd, List.tail_cons]
    constructor
    · split_ifs <;> simp <;> omega
    · intro _; omega

theorem passesLeft_endRecord (st : ReaderState) (dst : List String) :
    passesLeft (endRecord st dst) ≤ 3 * st.inp.length + 1 := by
  unfold endRecord
  split_ifs <;> simp [passesLeft, finish]

theorem length_dropWhile_cons {p : Char → Bool} {line rest : List Char} {c : Char}
    (h : line.dropWhile p = c :: rest) : rest.length < line.length := by
  have hsplit := List.takeWhile_append_dropWhile p line
  rw [h] at hsplit
  rw [← hsplit]
  simp
  omega

theorem passesLeft_step (st : ReaderState) (h : st.isFinished = false) :
    passesLeft (step st) < passesLeft st := by
  cases hp : st.phase with
  | finished r => simp [ReaderState.isFinished, hp] at h
  | recordStart =>
    have hlen := readLine_length st.inp
    have heof := readLine_eof st.inp
    simp only [step, hp]
    split_ifs with h1 h2
    · simp only [Bool.and_eq_true, Bool.not_eq_true', beq_iff_eq] at h1
      have hne : st.inp ≠ [] := by
        intro h0
        have := heof.2 h0
        rw [h1.1] at this
        exact Bool.noConfusion this
      have := hlen.2 hne
      simp only [passesLeft, hp]
      omega
    · simp [passesLeft, hp, finish]
    · simp only [Bool.and_eq_true, Bool.not_eq_true', beq_iff_eq, not_and] at h1
      have hf : (readLine st.inp).2.1 = false := by simpa using h2
      have hl := h1 hf
      have hpos : 0 < (readLine st.inp).1.length := by
        rcases Nat.eq_zero_or_pos (readLine st.inp).1.length with h0 | h0
        · exfalso
          apply hl
          have hnil : (readLine st.inp).1 = [] := List.length_eq_zero.1 h0
          rw [hnil]
          simp [lengthNL]
        · exact h0
      simp only [passesLeft, hp]
      omega
  | fieldStart line =>
    simp only [step, hp]
    split_ifs with h1 h2
    · simp [passesLeft, hp, finish]
    · split
      · have hR : passesLeft st = 3 * st.inp.length + line.length + 2 := by
          simp [passesLeft, hp]
        rw [hR]
        exact Nat.lt_of_le_of_lt (passesLeft_endRecord st _) (by omega)
      · rename_i c rest hd
        have := length_dropWhile_cons hd
        simp only [passesLeft, hp]
        omega
    · have hne : line ≠ [] := by
        intro h0
        rw [h0] at h1
        simp at h1
      have : line.tail.length < line.length := by
        cases line with
        | nil => exact absurd rfl hne
        | cons c t => simp
      simp only [passesLeft, hp]
      omega
  | inQuotes line =>
    simp only [step, hp]
    split
    · rename_i c afterQuote hd
      have hlt := length_dropWhile_cons hd
      split
      · simp only [passesLeft, hp, List.length_cons] at *
        omega
      · simp only [passesLeft, hp, List.length_cons] at *
        omega
      · split_ifs
        · have hR : passesLeft st = 3 * st.inp.length + line.length + 2 := by
            simp [passesLeft, hp]
          rw [hR]
          exact Nat.lt_of_le_of_lt (passesLeft_endRecord st _) (by omega)
        · simp [passesLeft, hp, finish]
    · split_ifs with h1
      · have hlen := (readLine_length st.inp).1
        simp only [passesLeft, hp]
        omega
      · simp [passesLeft, hp, finish]

theorem runReader_finishes (n : Nat) (st : ReaderState) (h : passesLeft st < n) :
    (runReader n st).isFinished = true := by
  induction n generalizing st with
  | zero => omega
  | succ n ih =>
    cases hf : st.isFinished with
    | true =>
      cases hp : st.phase with
      | finished r => rw [runReader_finished _ st r hp]; exact hf
      | recordStart => simp [ReaderState.isFinished, hp] at hf
      | fieldStart line => simp [ReaderState.isFinished, hp] at hf
      | inQuotes line => simp [ReaderState.isFinished, hp] at hf
    | false =>
      rw [runReader_succ]
      apply ih
      have := passesLeft_step st hf
      omega

theorem isFinished_phase (st : ReaderState) (h : st.isFinished = true) :
    ∃ r, st.phase = Phase.finished r := by
  cases hp : st.phase with
  | finished r => exact ⟨r, rfl⟩
  | recordStart => simp [ReaderState.isFinished, hp] at h
  | fieldStart line => simp [ReaderState.isFinished, hp] at h
  | inQuotes line => simp [ReaderState.isFinished, hp] at h

/-- Within the number of passes `ReadAll` allows, the reader has returned, and
`ReadAll` gives what it returned. -/
theorem readAll_returns (content : String) :
    Returns (atRecord content.data 0 []) (ReadAll content) := by
  have hfin := runReader_finishes (3 * content.data.length + 2) (atRecord content.data 0 [])
    (by simp [passesLeft, atRecord])
  obtain ⟨r2, hp⟩ := isFinished_phase _ hfin
  have hr : ReadAll content = r2 := by
    unfold ReadAll
    show (match (runReader (3 * content.data.length + 2) (atRecord content.data 0 [])).phase with
      | Phase.finished result => result
      | _ => Except.error CsvError.quote) = r2
    rw [hp]
  rw [hr]
  exact ⟨_, hp⟩

theorem readAll_of_returns (content : String) (r : Except CsvError (List (List String)))
    (h : Returns (atRecord content.data 0 []) r) : ReadAll content = r :=
  returns_unique _ _ _ (readAll_returns content) h

/-! ## Lines of a stream -/

theorem firstLine_append (w s : List Char) (h : '\n' ∉ w) :
    firstLine (w ++ s) = w ++ firstLine s := by
  induction w with
  | nil => rfl
  | cons c w ih =>
    have hc : c ≠ '\n' := fun h0 => h (by simp [h0])
    have hw : '\n' ∉ w := fun h0 => h (List.mem_cons_of_mem _ h0)
    simp [firstLine, hc, ih hw]

theorem afterLine_append (w s : List Char) (h : '\n' ∉ w) :
    afterLine (w ++ s) = afterLine s := by
  induction w with
  | nil => rfl
  | cons c w ih =>
    have hc : c ≠ '\n' := fun h0 => h (by simp [h0])
    have hw : '\n' ∉ w := fun h0 => h (List.mem_cons_of_mem _ h0)
    simp [afterLine, hc, ih hw]

theorem firstLine_ne_nil (s : List Char) (h : s ≠ []) : firstLine s ≠ [] := by
  cases s with
  | nil => exact absurd rfl h
  | cons c s =>
    simp only [firstLine]
    split_ifs <;> simp

theorem noCRLF_append_right (a b : List Char) (h : noCRLF (a ++ b) = true) : noCRLF b = true := by
  induction a with
  | nil => exact h
  | cons c a ih =>
    simp only [List.cons_append, noCRLF, Bool.and_eq_true] at h
    exact ih h.2

theorem noCRLF_getLast (pre rest : List Char) (h : noCRLF (pre ++ '\n' :: rest) = true) :
    pre.getLast? ≠ some '\r' := by
  induction pre with
  | nil => simp
  | cons c pre ih =>
    simp only [List.cons_append, noCRLF, Bool.and_eq_true] at h
    cases pre with
    | nil =>
      simp only [List.nil_append, List.head?_cons, Bool.not_eq_true', Bool.and_eq_false_imp,
        beq_iff_eq] at h
      intro hc
      simp only [List.getLast?_singleton, Option.some.injEq] at hc
      have := h.1 hc
      simp at this
    | cons d pre =>
      rw [List.getLast?_cons_cons]
      exact ih h.2

theorem readLine_append (pre rest : List Char) (h1 : '\n' ∉ pre)
    (h2 : pre.getLast? ≠ some '\r') :
    readLine (pre ++ '\n' :: rest) = (pre ++ ['\n'], false, rest) := by
  have hall : ∀ a ∈ pre, (fun c => c != '\n') a = true := by
    intro a ha
    have : a ≠ '\n' := fun h0 => h1 (h0 ▸ ha)
    simpa using this
  have ht : (pre ++ '\n' :: rest).takeWhile (fun c => c != '\n') = pre := by
    rw [List.takeWhile_append_of_pos hall]; simp
  have hd : (pre ++ '\n' :: rest).dropWhile (fun c => c != '\n') = '\n' :: rest := by
    rw [List.dropWhile_append_of_pos hall]; simp
  simp only [readLine, ht, hd]
  simp [h2]

theorem readLine_stream (s : List Char) (h1 : noCRLF s = true) (h2 : '\n' ∈ s) :
    readLine s = (firstLine s, false, afterLine s) := by
  obtain ⟨pre, rest, rfl, hpre⟩ := List.eq_append_cons_of_mem h2
  rw [readLine_append pre rest hpre (noCRLF_getLast pre rest h1),
    firstLine_append _ _ hpre, afterLine_append _ _ hpre]
  simp [firstLine, afterLine]

/-! ## Single passes of the reader on a written stream -/

/-- Inside quotes, characters other than a quote or a line feed are kept. -/
theorem step_quoted_plain (c : Char) (s : List Char) (fpr : Nat) (records : List (List String))
    (fields : List String) (buf : List Char) (hq : c ≠ '"') (hn : c ≠ '\n') (hs : s ≠ []) :
    step (atQuoted (c :: s) fpr records fields buf) =
      step (atQuoted s fpr records fields (buf ++ [c])) := by
  have hne := firstLine_ne_nil s hs
  have hl : 0 < (firstLine s).length := List.length_pos.2 hne
  simp only [atQuoted, firstLine, afterLine, if_neg hn, step]
  rw [List.dropWhile_cons, List.takeWhile_cons]
  simp only [bne_iff_ne, ne_eq, hq, not_false_eq_true, ite_true]
  cases hd : (firstLine s).dropWhile (fun c => c != '"') with
  | nil => simp [hl]
  | cons q afterQuote =>
    simp only []
    rcases afterQuote with _ | ⟨d, rest⟩
    · simp [endRecord, finish]
    · by_cases h1 : d = '"'
      · subst h1; simp
      · by_cases h2 : d = ','
        · subst h2; simp
        · split
          · simp_all
          · simp_all
          · simp [endRecord, finish]

/-- Inside quotes, two quotes are one quote of the field. -/
theorem step_quoted_quote (s : List Char) (fpr : Nat) (records : List (List String))
    (fields : List String) (buf : List Char) :
    step (atQuoted ('"' :: '"' :: s) fpr records fields buf) =
      atQuoted s fpr records fields (buf ++ ['"']) := by
  simp [atQuoted, firstLine, afterLine, step]

/-- Inside quotes, a line feed is kept and the next line is read. -/
theorem step_quoted_newline (s : List Char) (fpr : Nat) (records : List (List String))
    (fields : List String) (buf : List Char) (h1 : noCRLF s = true) (h2 : '\n' ∈ s) :
    step (atQuoted ('\n' :: s) fpr records fields buf) =
      atQuoted s fpr records fields (buf ++ ['\n']) := by
  simp [atQuoted, firstLine, afterLine, step, readLine_stream s h1 h2]

/-- A quote followed by a comma ends the field. -/
theorem step_quoted_comma (s : List Char) (fpr : Nat) (records : List (List String))
    (fields : List String) (buf : List Char) :
    step (atQuoted ('"' :: ',' :: s) fpr records fields buf) =
      atField s fpr records (fields ++ [String.mk buf]) := by
  simp [atQuoted, atField, firstLine, afterLine, step]

/-- A quote followed by a line feed ends the record. -/
theorem step_quoted_end (s : List Char) (fpr : Nat) (records : List (List String))
    (fields : List String) (buf : List Char)
    (hf : fpr = 0 ∨ fpr = (fields ++ [String.mk buf]).length) :
    step (atQuoted ('"' :: '\n' :: s) fpr records fields buf) =
      atRecord s (fields ++ [String.mk buf]).length (records ++ [fields ++ [String.mk buf]]) := by
  rcases hf with hf | hf
  · subst hf
    simp [atQuoted, atRecord, firstLine, afterLine, step, lengthNL, endRecord]
  · simp only [atQuoted, atRecord, firstLine, afterLine, step, lengthNL, endRecord]
    simp [← hf]

/-- An opening quote starts a quoted field. -/
theorem step_field_quote (s : List Char) (fpr : Nat) (records : List (List String))
    (fields : List String) :
    step (atField ('"' :: s) fpr records fields) = atQuoted s fpr records fields [] := by
  simp [atQuoted, atField, firstLine, afterLine, step]

/-- A field written without quotes and followed by a comma. -/
theorem step_field_comma (f s : List Char) (fpr : Nat) (records : List (List String))
    (fields : List String) (h1 : '\n' ∉ f) (h2 : '"' ∉ f) (h3 : ',' ∉ f) :
    step (atField (f ++ ',' :: s) fpr records fields) =
      atField s fpr records (fields ++ [String.mk f]) := by
  have hall : ∀ a ∈ f, (fun c => c != ',') a = true := by
    intro a ha
    have : a ≠ ',' := fun h0 => h3 (h0 ▸ ha)
    simpa using this
  have hhead : (f ++ ',' :: firstLine s).head? ≠ some '"' := by
    cases f with
    | nil => simp
    | cons c f =>
      have : c ≠ '"' := fun h0 => h2 (by simp [h0])
      simpa using this
  have ht : (f ++ ',' :: firstLine s).takeWhile (fun c => c != ',') = f := by
    rw [List.takeWhile_append_of_pos hall]; simp
  have hd : (f ++ ',' :: firstLine s).dropWhile (fun c => c != ',') = ',' :: firstLine s := by
    rw [List.dropWhile_append_of_pos hall]; simp
  have hfl : firstLine (f ++ ',' :: s) = f ++ ',' :: firstLine s := by
    rw [firstLine_append _ _ h1]; simp [firstLine]
  have hal : afterLine (f ++ ',' :: s) = afterLine s := by
    rw [afterLine_append _ _ h1]; simp [afterLine]
  simp only [atField, step, hfl, hal]
  rw [if_pos hhead, hd]
  simp only [ht]
  rw [if_neg h2]

/-- A field written without quotes and followed by the line feed of its record. -/
theorem step_field_end (f s : List Char) (fpr : Nat) (records : List (List String))
    (fields : List String) (h1 : '\n' ∉ f) (h2 : '"' ∉ f) (h3 : ',' ∉ f)
    (hf : fpr = 0 ∨ fpr = (fields ++ [String.mk f]).length) :
    step (atField (f ++ '\n' :: s) fpr records fields) =
      atRecord s (fields ++ [String.mk f]).length (records ++ [fields ++ [String.mk f]]) := by
  have hall : ∀ a ∈ f ++ ['\n'], (fun c => c != ',') a = true := by
    intro a ha
    rcases List.mem_append.1 ha with ha | ha
    · have : a ≠ ',' := fun h0 => h3 (h0 ▸ ha)
      simpa using this
    · simp only [List.mem_singleton] at ha
      subst ha
      decide
  have hhead : (f ++ ['\n']).head? ≠ some '"' := by
    cases f with
    | nil => simp
    | cons c f =>
      have : c ≠ '"' := fun h0 => h2 (by simp [h0])
      simpa using this
  have hd : (f ++ ['\n']).dropWhile (fun c => c != ',') = [] := by
    rw [List.dropWhile_eq_nil_iff]; exact hall
  have hfl : firstLine (f ++ '\n' :: s) = f ++ ['\n'] := by
    rw [firstLine_append _ _ h1]; simp [firstLine]
  have hal : afterLine (f ++ '\n' :: s) = s := by
    rw [afterLine_append _ _ h1]; simp [afterLine]
  have htake : (f ++ ['\n']).take ((f ++ ['\n']).length - lengthNL (f ++ ['\n'])) = f := by
    simp [lengthNL]
  simp only [atField, step, hfl, hal]
  rw [if_pos hhead, hd]
  simp only [htake]
  rw [if_neg h2]
  rcases hf with hf | hf
  · subst hf
    simp [atRecord, endRecord]
  · simp only [atRecord, endRecord]
    simp [← hf]

/-- At the start of a record that is not an empty line, the first line is read. -/
theorem step_record (s : List Char) (fpr : Nat) (records : List (List String))
    (h1 : noCRLF s = true) (h2 : '\n' ∈ s) (h3 : s.head? ≠ some '\n') :
    step (atRecord s fpr records) = atField s fpr records [] := by
  have hlen : (firstLine s).length ≠ lengthNL (firstLine s) := by
    cases s with
    | nil => simp at h2
    | cons c s =>
      have hc : c ≠ '\n' := by simpa using h3
      have hs : s ≠ [] := by
        intro h0
        subst h0
        simp at h2
        exact hc h2.symm
      have := List.length_pos.2 (firstLine_ne_nil s hs)
      simp only [firstLine, if_neg hc, List.length_cons, lengthNL]
      split_ifs <;> omega
  simp only [atRecord, atField, step, readLine_stream s h1 h2]
  simp [hlen]

/-- At the end of the input `ReadAll` returns the records collected. -/
theorem step_record_eof (fpr : Nat) (records : List (List String)) :
    (step (atRecord [] fpr records)).phase = Phase.finished (Except.ok records) := by
  simp [atRecord, step, readLine, finish]

/-! ## Reading back what the writer wrote: one field -/

/-- The content of a quoted field is read back: at the closing quote the buffer
holds the field. -/
theorem returns_quoted (f t : List Char) (fpr : Nat) (records : List (List String))
    (fields : List String) (buf : List Char) (r : Except CsvError (List (List String)))
    (h1 : noCRLF (f.flatMap (fun c => if c = '"' then ['"', '"'] else [c]) ++ '"' :: t) = true)
    (h2 : '\n' ∈ t) :
    Returns (atQuoted (f.flatMap (fun c => if c = '"' then ['"', '"'] else [c]) ++ '"' :: t)
        fpr records fields buf) r ↔
      Returns (atQuoted ('"' :: t) fpr records fields (buf ++ f)) r := by
  induction f generalizing buf with
  | nil => simp
  | cons c f ih =>
    have hmem : '\n' ∈ f.flatMap (fun c => if c = '"' then ['"', '"'] else [c]) ++ '"' :: t := by
      simp [h2]
    by_cases hq : c = '"'
    · subst hq
      simp only [List.flatMap_cons, if_true, List.cons_append, List.nil_append] at h1 ⊢
      have h1b : noCRLF (f.flatMap (fun c => if c = '"' then ['"', '"'] else [c]) ++ '"' :: t) = true := noCRLF_append_right ['"', '"'] _ h1
      rw [← returns_step, step_quoted_quote, ih _ h1b]
      simp
    · simp only [List.flatMap_cons, if_neg hq, List.cons_append, List.nil_append] at h1 ⊢
      have h1b : noCRLF (f.flatMap (fun c => if c = '"' then ['"', '"'] else [c]) ++ '"' :: t) = true := noCRLF_append_right [c] _ h1
      by_cases hn : c = '\n'
      · subst hn
        rw [← returns_step, step_quoted_newline _ _ _ _ _ h1b hmem, ih _ h1b]
        simp
      · rw [returns_of_step_eq _ _ r (step_quoted_plain c _ fpr records fields buf hq hn
          (by simp)), ih _ h1b]
        simp

theorem not_needsQuotes (f : String) (h : fieldNeedsQuotes f = false) :
    '\n' ∉ f.data ∧ '\r' ∉ f.data ∧ '"' ∉ f.data ∧ ',' ∉ f.data := by
  unfold fieldNeedsQuotes at h
  split_ifs at h with h0 h1 h2
  · subst h0
    simp
  · rw [Bool.not_eq_true, List.any_eq_false] at h2
    refine ⟨fun hm => ?_, fun hm => ?_, fun hm => ?_, fun hm => ?_⟩ <;>
      · have := h2 _ hm
        simp at this

/-- A written field followed by a comma is read back and the next field starts. -/
theorem returns_field_comma (f : String) (s : List Char) (fpr : Nat)
    (records : List (List String)) (fields : List String)
    (r : Except CsvError (List (List String)))
    (h1 : noCRLF (writeField f ++ ',' :: s) = true) (h2 : '\n' ∈ s) :
    Returns (atField (writeField f ++ ',' :: s) fpr records fields) r ↔
      Returns (atField s fpr records (fields ++ [f])) r := by
  unfold writeField at h1 ⊢
  cases hq : fieldNeedsQuotes f with
  | true =>
    simp only [hq, if_true, List.cons_append, List.nil_append, List.append_assoc] at h1 ⊢
    have h1b : noCRLF (f.data.flatMap (fun c => if c = '"' then ['"', '"'] else [c]) ++ '"' :: ',' :: s) = true := noCRLF_append_right ['"'] _ h1
    rw [← returns_step, step_field_quote, returns_quoted _ _ _ _ _ _ _ h1b (by simp [h2]),
      ← returns_step, step_quoted_comma]
    simp
  | false =>
    obtain ⟨hn, _, hqu, hc⟩ := not_needsQuotes f hq
    simp only [hq] at h1 ⊢
    rw [← returns_step]
    simp only [Bool.false_eq_true, if_false]
    rw [step_field_comma _ _ _ _ _ hn hqu hc]

/-- A written field followed by the line feed of its record is read back and
the record is complete. -/
theorem returns_field_end (f : String) (s : List Char) (fpr : Nat)
    (records : List (List String)) (fields : List String)
    (r : Except CsvError (List (List String)))
    (h1 : noCRLF (writeField f ++ '\n' :: s) = true)
    (hf : fpr = 0 ∨ fpr = (fields ++ [f]).length) :
    Returns (atField (writeField f ++ '\n' :: s) fpr records fields) r ↔
      Returns (atRecord s (fields ++ [f]).length (records ++ [fields ++ [f]])) r := by
  unfold writeField at h1 ⊢
  cases hq : fieldNeedsQuotes f with
  | true =>
    simp only [hq, if_true, List.cons_append, List.nil_append, List.append_assoc] at h1 ⊢
    have h1b : noCRLF (f.data.flatMap (fun c => if c = '"' then ['"', '"'] else [c]) ++ '"' :: '\n' :: s) = true := noCRLF_append_right ['"'] _ h1
    rw [← returns_step, step_field_quote, returns_quoted _ _ _ _ _ _ _ h1b (by simp),
      ← returns_step, step_quoted_end _ _ _ _ _ (by simpa using hf)]
    simp
  | false =>
    obtain ⟨hn, _, hqu, hc⟩ := not_needsQuotes f hq
    simp only [hq] at h1 ⊢
    rw [← returns_step]
    simp only [Bool.false_eq_true, if_false]
    rw [step_field_end _ _ _ _ _ hn hqu hc (by simpa using hf)]

/-! ## Reading back what the writer wrote: records and files -/

theorem writeFields_cons_cons (f g : String) (rest : List String) :
    writeFields (f :: g :: rest) = writeField f ++ ',' :: writeFields (g :: rest) := by
  simp [writeFields]

/-- The fields of a written record are read back in order. -/
theorem returns_fields (fs : List String) (hne : fs ≠ []) (s : List Char) (fpr : Nat)
    (records : List (List String)) (fields : List String)
    (r : Except CsvError (List (List String)))
    (h1 : noCRLF (writeFields fs ++ '\n' :: s) = true)
    (hf : fpr = 0 ∨ fpr = (fields ++ fs).length) :
    Returns (atField (writeFields fs ++ '\n' :: s) fpr records fields) r ↔
      Returns (atRecord s (fields ++ fs).length (records ++ [fields ++ fs])) r := by
  induction fs generalizing fields with
  | nil => exact absurd rfl hne
  | cons f rest ih =>
    cases rest with
    | nil =>
      simp only [writeFields] at h1 ⊢
      exact returns_field_end f s fpr records fields r h1 hf
    | cons g rest =>
      rw [writeFields_cons_cons, List.append_assoc, List.cons_append] at h1 ⊢
      have h1b : noCRLF (writeFields (g :: rest) ++ '\n' :: s) = true :=
        noCRLF_append_right (writeField f ++ [',']) _ (by simpa using h1)
      rw [returns_field_comma f _ fpr records fields r h1 (by simp),
        ih (by simp) (fields ++ [f]) h1b (by simpa using hf)]
      simp

theorem writeFields_head (f g : String) (rest : List String) (x : List Char) :
    (writeFields (f :: g :: rest) ++ x).head? ≠ some '\n' := by
  rw [writeFields_cons_cons]
  unfold writeField
  cases hq : fieldNeedsQuotes f with
  | true => simp
  | false =>
    obtain ⟨hn, _, _, _⟩ := not_needsQuotes f hq
    simp only [Bool.false_eq_true, if_false]
    cases hd : f.data with
    | nil => simp
    | cons c cs =>
      rw [hd] at hn
      have : c ≠ '\n' := fun h0 => hn (by simp [h0])
      simpa using this

/-- A written record of at least two fields is read back as one record. -/
theorem returns_record (record : List String) (hlen : 2 ≤ record.length) (s : List Char)
    (fpr : Nat) (records : List (List String)) (r : Except CsvError (List (List String)))
    (h1 : noCRLF (writeRecord record ++ s) = true) (hf : fpr = 0 ∨ fpr = record.length) :
    Returns (atRecord (writeRecord record ++ s) fpr records) r ↔
      Returns (atRecord s record.length (records ++ [record])) r := by
  have hstream : writeRecord record ++ s = writeFields record ++ '\n' :: s := by
    simp [writeRecord]
  rw [hstream] at h1 ⊢
  have hhead : (writeFields record ++ '\n' :: s).head? ≠ some '\n' := by
    match record, hlen with
    | f :: g :: rest, _ => exact writeFields_head f g rest _
  have hne : record ≠ [] := by
    intro h0
    rw [h0] at hlen
    simp at hlen
  rw [← returns_step, step_record _ _ _ h1 (by simp) hhead,
    returns_fields record hne s fpr records [] r h1 (by simpa using hf)]
  simp

/-- A file of written records, all of the same length, is read back as those
records. -/
theorem returns_rows (rows : List (List String)) (n : Nat) (hn : 2 ≤ n)
    (hall : ∀ row ∈ rows, row.length = n) (fpr : Nat) (hf : fpr = 0 ∨ fpr = n)
    (records : List (List String)) (h1 : noCRLF (rows.flatMap writeRecord) = true) :
    Returns (atRecord (rows.flatMap writeRecord) fpr records) (Except.ok (records ++ rows)) := by
  induction rows generalizing fpr records with
  | nil =>
    rw [← returns_step]
    exact returns_finished _ _ (by simpa using step_record_eof fpr records)
  | cons row rows ih =>
    have hrow : row.length = n := hall row (List.mem_cons_self _ _)
    have h1b : noCRLF (rows.flatMap writeRecord) = true :=
      noCRLF_append_right (writeRecord row) _ (by simpa using h1)
    rw [List.flatMap_cons] at h1 ⊢
    rw [returns_record row (by omega) _ fpr records _ h1 (by omega)]
    have := ih (fun r hr => hall r (List.mem_cons_of_mem _ hr)) row.length (by omega)
      (records ++ [row]) h1b
    simpa using this

/-! ## Carriage return + line feed in what the writer wrote -/

theorem noCRLF_append (a b : List Char) (ha : noCRLF a = true) (hl : a.getLast? ≠ some '\r')
    (hb : noCRLF b = true) : noCRLF (a ++ b) = true := by
  induction a with
  | nil => exact hb
  | cons c a ih =>
    simp only [noCRLF, Bool.and_eq_true] at ha
    cases a with
    | nil =>
      have hc : c ≠ '\r' := by simpa using hl
      simp [noCRLF, hc, hb]
    | cons d a =>
      rw [List.getLast?_cons_cons] at hl
      have := ih ha.2 hl
      simp only [List.cons_append, noCRLF, Bool.and_eq_true] at this ⊢
      exact ⟨by simpa using ha.1, this⟩

theorem noCRLF_of_not_mem (a : List Char) (h : '\r' ∉ a) : noCRLF a = true := by
  induction a with
  | nil => rfl
  | cons c a ih =>
    have hc : c ≠ '\r' := fun h0 => h (by simp [h0])
    have ha : '\r' ∉ a := fun h0 => h (List.mem_cons_of_mem _ h0)
    simp [noCRLF, hc, ih ha]

theorem noCRLF_escape (f : List Char) (t : List Char) (ht : t.head? ≠ some '\n')
    (hf : noCRLF f = true) (h : noCRLF t = true) :
    noCRLF (f.flatMap (fun c => if c = '"' then ['"', '"'] else [c]) ++ t) = true := by
  induction f with
  | nil => simpa using h
  | cons c f ih =>
    simp only [noCRLF, Bool.and_eq_true] at hf
    have ih2 := ih hf.2
    by_cases hq : c = '"'
    · subst hq
      show noCRLF ('"' :: '"' ::
        (f.flatMap (fun c => if c = '"' then ['"', '"'] else [c]) ++ t)) = true
      rw [noCRLF, noCRLF, ih2]
      simp
    · simp only [List.flatMap_cons, if_neg hq, List.cons_append, List.nil_append, noCRLF,
        Bool.and_eq_true]
      refine ⟨?_, ih2⟩
      have h1 := hf.1
      cases f with
      | nil =>
        simp only [List.flatMap_nil, List.nil_append]
        by_cases hc : c = '\r'
        · subst hc
          cases t with
          | nil => simp
          | cons d t =>
            have : d ≠ '\n' := by simpa using ht
            simp [this]
        · simp [hc]
      | cons d f =>
        by_cases hd : d = '"'
        · subst hd
          simp
        · simpa [List.flatMap_cons, hd] using h1

theorem noCRLF_writeField (f : String) (hf : noCRLF f.data = true) :
    noCRLF (writeField f) = true ∧ (writeField f).getLast? ≠ some '\r' := by
  unfold writeField
  cases hq : fieldNeedsQuotes f with
  | true =>
    simp only [if_true, List.append_assoc, List.cons_append, List.nil_append]
    constructor
    · simp only [noCRLF, List.head?_cons]
      have := noCRLF_escape f.data ['"'] (by simp) hf (by decide)
      simpa using this
    · rw [← List.cons_append, List.getLast?_concat]
      decide
  | false =>
    obtain ⟨_, hr, _, _⟩ := not_needsQuotes f hq
    simp only [Bool.false_eq_true, if_false]
    refine ⟨hf, ?_⟩
    intro h0
    exact hr (List.mem_of_getLast?_eq_some h0)

theorem noCRLF_writeFields (fs : List String) (hfs : ∀ f ∈ fs, noCRLF f.data = true)
    (s : List Char) (hs : noCRLF s = true) :
    noCRLF (writeFields fs ++ '\n' :: s) = true := by
  have htail : noCRLF ('\n' :: s) = true := by simp [noCRLF, hs]
  induction fs with
  | nil => simpa [writeFields] using htail
  | cons f rest ih =>
    obtain ⟨h1, h2⟩ := noCRLF_writeField f (hfs f (List.mem_cons_self _ _))
    cases rest with
    | nil =>
      simp only [writeFields]
      exact noCRLF_append _ _ h1 h2 htail
    | cons g rest =>
      rw [writeFields_cons_cons, List.append_assoc, List.cons_append]
      apply noCRLF_append _ _ h1 h2
      have := ih (fun x hx => hfs x (List.mem_cons_of_mem _ hx))
      simp only [noCRLF, Bool.and_eq_true]
      exact ⟨by simp, this⟩

theorem noCRLF_rows (rows : List (List String))
    (h : ∀ row ∈ rows, ∀ f ∈ row, noCRLF f.data = true) :
    noCRLF (rows.flatMap writeRecord) = true := by
  induction rows with
  | nil => rfl
  | cons row rows ih =>
    have := noCRLF_writeFields row (h row (List.mem_cons_self _ _)) _
      (ih (fun r hr => h r (List.mem_cons_of_mem _ hr)))
    simpa [writeRecord] using this

theorem noCRLF_iff (s : List Char) : noCRLF s = true ↔ ¬ ['\r', '\n'] <:+: s := by
  induction s with
  | nil => simp [noCRLF]
  | cons c s ih =>
    rw [List.infix_cons_iff, not_or, ← ih]
    simp only [noCRLF, Bool.and_eq_true, Bool.not_eq_true', Bool.and_eq_false_imp, beq_iff_eq]
    apply and_congr_left
    intro _
    rw [List.cons_prefix_cons]
    cases s with
    | nil => simp
    | cons d s =>
      simp only [List.head?_cons, Option.some.injEq, decide_eq_false_iff_not, beq_iff_eq,
        beq_eq_false_iff_ne, ne_eq, List.cons_prefix_cons, List.nil_prefix, and_true, not_and]
      constructor <;> intro h hc hd <;> exact h hc.symm hd.symm

/-! ## The snapshot load -/

/-- What the load loop makes of one row. -/
theorem loadLoop_eq (rows : List (List String)) (init : List Listing) :
    rows.foldl (fun previousListings record =>
        if h : record.length ≥ 5 then
          previousListings ++ [{ Title := record[0], Price := record[1], Mileage := record[2],
                                 City := record[3], Distance := record[4] }]
        else previousListings) init =
      init ++ rows.filterMap rowListing := by
  induction rows generalizing init with
  | nil => simp
  | cons row rows ih =>
    rw [List.foldl_cons, ih]
    match row with
    | [] => simp [rowListing]
    | [_] => simp [rowListing]
    | [_, _] => simp [rowListing]
    | [_, _, _] => simp [rowListing]
    | [_, _, _, _] => simp [rowListing]
    | a :: b :: c :: d :: e :: rest => simp [rowListing]

theorem loadPrevious_of_rows (content : String) (header : List String)
    (rows : List (List String)) (h : ReadAll content = Except.ok (header :: rows)) :
    loadPrevious (some content) = rows.filterMap rowListing := by
  simp only [loadPrevious, h]
  cases rows with
  | nil => simp
  | cons row rows =>
    rw [if_pos (by simp)]
    simp only [List.drop_succ_cons, List.drop_zero]
    rw [loadLoop_eq]
    simp

/-! ## The snapshot round trip -/

theorem readAll_snapshot (L : List Listing)
    (h : ∀ l ∈ L, ∀ f ∈ l.toRecord, ¬ containsCRLF f) :
    ReadAll (snapshotContent L) =
      Except.ok (["Title", "Price", "Mileage", "City", "Distance"] :: L.map Listing.toRecord) := by
  apply readAll_of_returns
  have hdata : (snapshotContent L).data =
      (["Title", "Price", "Mileage", "City", "Distance"] :: L.map Listing.toRecord).flatMap
        writeRecord := by
    simp [snapshotContent, Listing.toRecord, List.flatMap_cons]
    rfl
  rw [hdata]
  have hrows := returns_rows
    (["Title", "Price", "Mileage", "City", "Distance"] :: L.map Listing.toRecord) 5 (by omega)
    (by
      intro row hrow
      rcases List.mem_cons.1 hrow with rfl | hrow
      · rfl
      · obtain ⟨l, _, rfl⟩ := List.mem_map.1 hrow
        rfl)
    0 (Or.inl rfl) []
    (by
      apply noCRLF_rows
      intro row hrow f hf
      rcases List.mem_cons.1 hrow with rfl | hrow
      · revert f
        decide
      · obtain ⟨l, hl, rfl⟩ := List.mem_map.1 hrow
        rw [noCRLF_iff]
        exact h l hl f hf)
  simpa using hrows

theorem not_containsCRLF_of_check (L : List Listing)
    (h : (L.all (fun l => l.toRecord.all (fun f => noCRLF f.data))) = true) :
    ∀ l ∈ L, ∀ f ∈ l.toRecord, ¬ containsCRLF f := by
  intro l hl f hf
  unfold containsCRLF
  rw [← noCRLF_iff]
  rw [List.all_eq_true] at h
  have := h l hl
  rw [List.all_eq_true] at this
  exact this f hf

/-- C7, as amended: a record list none of whose fields contains a carriage
return immediately followed by a line feed is loaded back from its snapshot
unchanged, field for field and in order; so what a run loads from the snapshot
is what the run before it assembled and saved. -/
theorem snapshot_round_trip :
    (∀ L : List Listing, (∀ l ∈ L, ∀ f ∈ l.toRecord, ¬ containsCRLF f) →
      loadPrevious (some (snapshotContent L)) = L) ∧
    (∀ (files : Files) (titles prices mileages cities distances : List String) (now : String),
      (∀ l ∈ assembleListings titles prices mileages cities distances,
        ∀ f ∈ l.toRecord, ¬ containsCRLF f) →
      loadPrevious (mainRun files titles prices mileages cities distances now).1.listingsCsv =
        assembleListings titles prices mileages cities distances) := by
  have key : ∀ L : List Listing, (∀ l ∈ L, ∀ f ∈ l.toRecord, ¬ containsCRLF f) →
      loadPrevious (some (snapshotContent L)) = L := by
    intro L h
    rw [loadPrevious_of_rows _ _ _ (readAll_snapshot L h), List.filterMap_map]
    have hid : ∀ l : Listing, rowListing l.toRecord = some l := fun l => rfl
    induction L with
    | nil => rfl
    | cons l L ih =>
      rw [List.filterMap_cons]
      simp only [Function.comp_apply, hid]
      rw [ih (fun x hx => h x (List.mem_cons_of_mem _ hx))]
  exact ⟨key, fun files titles prices mileages cities distances now h => key _ h⟩

/-- C7 witness: a listing with a quote, a comma, a leading space, line feeds and
a lone carriage return in its fields, followed by a listing of empty fields. -/
theorem snapshot_round_trip_witness :
    loadPrevious (some (snapshotContent
        [{ Title := "Camry \"SE\"", Price := "$18,000", Mileage := " 40 mi",
           City := "Athens\n\nGA", Distance := "5\rmi" },
         { Title := "", Price := "", Mileage := "", City := "", Distance := "" }])) =
      [{ Title := "Camry \"SE\"", Price := "$18,000", Mileage := " 40 mi",
         City := "Athens\n\nGA", Distance := "5\rmi" },
       { Title := "", Price := "", Mileage := "", City := "", Distance := "" }] ∧
    loadPrevious (mainRun { listingsCsv := none, changesTxt := none }
        ["Camry, 2021"] ["$18,000"] [] [] ["5 mi"] "2024-05-01 10:00:00").1.listingsCsv =
      assembleListings ["Camry, 2021"] ["$18,000"] [] [] ["5 mi"] :=
  ⟨snapshot_round_trip.1 _ (not_containsCRLF_of_check _ (by decide)),
   snapshot_round_trip.2 _ _ _ _ _ _ _ (not_containsCRLF_of_check _ (by decide))⟩

/-- C7 counterexample: a Title holding carriage return + line feed is written
between quotes with both characters, and read back with the line feed only. -/
theorem snapshot_round_trip_fails_on_crlf :
    loadPrevious (some (snapshotContent
        [{ Title := "a\r\nb", Price := "", Mileage := "", City := "", Distance := "" }])) =
      [{ Title := "a\nb", Price := "", Mileage := "", City := "", Distance := "" }] ∧
    loadPrevious (some (snapshotContent
        [{ Title := "a\r\nb", Price := "", Mileage := "", City := "", Distance := "" }])) ≠
      [{ Title := "a\r\nb", Price := "", Mileage := "", City := "", Distance := "" }] := by
  decide

/-! ## Malformed and missing snapshots -/

/-- C9: the load never fails.  With no snapshot, with a snapshot `ReadAll` cannot
parse, and with one of fewer than two rows, the previous list is empty; the
first row is never made a listing, whatever it holds; and the reader always
returns. -/
theorem load_never_fails :
    loadPrevious none = [] ∧
    (∀ (content : String) (e : CsvError), ReadAll content = Except.error e →
      loadPrevious (some content) = []) ∧
    (∀ (content : String) (records : List (List String)), ReadAll content = Except.ok records →
      records.length < 2 → loadPrevious (some content) = []) ∧
    (∀ (content : String) (header : List String) (rows : List (List String)),
      ReadAll content = Except.ok (header :: rows) →
      loadPrevious (some content) = rows.filterMap rowListing) ∧
    (∀ content : String, Returns (atRecord content.data 0 []) (ReadAll content)) := by
  refine ⟨rfl, ?_, ?_, ?_, readAll_returns⟩
  · intro content e h
    simp [loadPrevious, h]
  · intro content records h hlen
    simp only [loadPrevious, h]
    rw [if_neg (by omega)]
  · intro content header rows h
    exact loadPrevious_of_rows content header rows h

/-- C9 witness: an unterminated quote, a snapshot with the header only, and a
snapshot whose first row is not the header. -/
theorem load_never_fails_witness :
    loadPrevious (some "a,\"b") = [] ∧
    loadPrevious (some "Title,Price,Mileage,City,Distance\n") = [] ∧
    loadPrevious (some "a,b,c,d,e\nf,g,h,i,j\n") =
      [{ Title := "f", Price := "g", Mileage := "h", City := "i", Distance := "j" }] :=
  ⟨load_never_fails.2.1 "a,\"b" CsvError.quote rfl,
   load_never_fails.2.2.1 "Title,Price,Mileage,City,Distance\n"
     [["Title", "Price", "Mileage", "City", "Distance"]] rfl (by decide),
   load_never_fails.2.2.2.1 "a,b,c,d,e\nf,g,h,i,j\n" ["a", "b", "c", "d", "e"]
     [["f", "g", "h", "i", "j"]] rfl⟩

/-! ## All records `ReadAll` returns have the same number of fields -/

theorem uniform_endRecord (st : ReaderState) (dst : List String) (hd : dst ≠ [])
    (h : (∀ rec ∈ st.records, rec.length = st.fieldsPerRecord) ∧
      (st.fieldsPerRecord = 0 → st.records = [])) :
    (∀ rec ∈ (endRecord st dst).records, rec.length = (endRecord st dst).fieldsPerRecord) ∧
      ((endRecord st dst).fieldsPerRecord = 0 → (endRecord st dst).records = []) ∧
      (∀ recs, (endRecord st dst).phase = Phase.finished (Except.ok recs) →
        recs = (endRecord st dst).records) := by
  obtain ⟨h1, h2⟩ := h
  have hlen : 0 < dst.length := List.length_pos.2 hd
  unfold endRecord
  split_ifs with hc hz
  · simp only [finish]
    exact ⟨h1, h2, fun recs hr => by simp at hr⟩
  · refine ⟨?_, fun h0 => ?_, fun recs hr => by simp at hr⟩
    · intro rec hrec
      simp only [h2 hz, List.nil_append, List.mem_singleton] at hrec
      rw [hrec]
    · simp only at h0
      omega
  · refine ⟨?_, fun h0 => absurd h0 hz, fun recs hr => by simp at hr⟩
    intro rec hrec
    rcases List.mem_append.1 hrec with hrec | hrec
    · exact h1 rec hrec
    · simp only [List.mem_singleton] at hrec
      subst hrec
      by_contra hne
      exact hc ⟨by omega, hne⟩

theorem uniform_step (st : ReaderState)
    (h : (∀ rec ∈ st.records, rec.length = st.fieldsPerRecord) ∧
      (st.fieldsPerRecord = 0 → st.records = []) ∧
      (∀ recs, st.phase = Phase.finished (Except.ok recs) → recs = st.records)) :
    (∀ rec ∈ (step st).records, rec.length = (step st).fieldsPerRecord) ∧
      ((step st).fieldsPerRecord = 0 → (step st).records = []) ∧
      (∀ recs, (step st).phase = Phase.finished (Except.ok recs) → recs = (step st).records) := by
  obtain ⟨h1, h2, h3⟩ := h
  cases hp : st.phase with
  | finished r =>
    rw [step_finished st r hp]
    exact ⟨h1, h2, h3⟩
  | recordStart =>
    simp only [step, hp]
    split_ifs
    · exact ⟨h1, h2, fun recs hr => by simp at hr⟩
    · refine ⟨h1, h2, fun recs hr => ?_⟩
      simp only [finish, Phase.finished.injEq, Except.ok.injEq] at hr
      exact hr.symm
    · exact ⟨h1, h2, fun recs hr => by simp at hr⟩
  | fieldStart line =>
    simp only [step, hp]
    split_ifs
    · exact ⟨h1, h2, fun recs hr => by simp [finish] at hr⟩
    · split
      · exact uniform_endRecord st _ (by simp) ⟨h1, h2⟩
      · exact ⟨h1, h2, fun recs hr => by simp at hr⟩
    · exact ⟨h1, h2, fun recs hr => by simp at hr⟩
  | inQuotes line =>
    simp only [step, hp]
    split
    · split
      · exact ⟨h1, h2, fun recs hr => by simp at hr⟩
      · exact ⟨h1, h2, fun recs hr => by simp at hr⟩
      · split_ifs
        · exact uniform_endRecord st _ (by simp) ⟨h1, h2⟩
        · exact ⟨h1, h2, fun recs hr => by simp [finish] at hr⟩
    · split_ifs
      · exact ⟨h1, h2, fun recs hr => by simp at hr⟩
      · exact ⟨h1, h2, fun recs hr => by simp [finish] at hr⟩

theorem uniform_run (n : Nat) (st : ReaderState)
    (h : (∀ rec ∈ st.records, rec.length = st.fieldsPerRecord) ∧
      (st.fieldsPerRecord = 0 → st.records = []) ∧
      (∀ recs, st.phase = Phase.finished (Except.ok recs) → recs = st.records)) :
    (∀ rec ∈ (runReader n st).records, rec.length = (runReader n st).fieldsPerRecord) ∧
      ((runReader n st).fieldsPerRecord = 0 → (runReader n st).records = []) ∧
      (∀ recs, (runReader n st).phase = Phase.finished (Except.ok recs) →
        recs = (runReader n st).records) := by
  induction n generalizing st with
  | zero => exact h
  | succ n ih =>
    rw [runReader_succ]
    exact ih _ (uniform_step st h)

/-- Every row `ReadAll` returns has as many fields as the first one. -/
theorem readAll_uniform (content : String) (header : List String) (rows : List (List String))
    (h : ReadAll content = Except.ok (header :: rows)) :
    ∀ row ∈ rows, row.length = header.length := by
  obtain ⟨n, hn⟩ := readAll_returns content
  rw [h] at hn
  have hinv := uniform_run n (atRecord content.data 0 [])
    ⟨by simp [atRecord], by simp [atRecord], by simp [atRecord]⟩
  have hrec := hinv.2.2 _ hn
  intro row hrow
  have ha := hinv.1 header (by rw [← hrec]; simp)
  have hb := hinv.1 row (by rw [← hrec]; simp [hrow])
  omega

theorem rowListing_eq_none (row : List String) (h : row.length < 5) : rowListing row = none := by
  match row with
  | [] => rfl
  | [_] => rfl
  | [_, _] => rfl
  | [_, _, _] => rfl
  | [_, _, _, _] => rfl
  | _ :: _ :: _ :: _ :: _ :: _ => simp at h; omega

/-- Whatever the snapshot holds, the load either keeps no row or skips none:
rows of different lengths never come back from `ReadAll`. -/
theorem load_skips_all_or_none (content : String) :
    loadPrevious (some content) = [] ∨
      ∃ header rows, ReadAll content = Except.ok (header :: rows) ∧
        (∀ row ∈ rows, 5 ≤ row.length) ∧
        loadPrevious (some content) = rows.filterMap rowListing := by
  cases hr : ReadAll content with
  | error e => exact Or.inl (by simp [loadPrevious, hr])
  | ok records =>
    cases records with
    | nil => exact Or.inl (by simp [loadPrevious, hr])
    | cons header rows =>
      have huni := readAll_uniform content header rows hr
      have hload := loadPrevious_of_rows content header rows hr
      by_cases h5 : 5 ≤ header.length
      · exact Or.inr ⟨header, rows, rfl, fun row hrow => by rw [huni row hrow]; exact h5, hload⟩
      · left
        rw [hload, List.filterMap_eq_nil_iff]
        intro row hrow
        exact rowListing_eq_none row (by rw [huni row hrow]; omega)

/-- C8, the failing input: a snapshot with the header, one row of five fields and
one row of two fields.  `ReadAll` returns `ErrFieldCount` for the short row, so
the load keeps no row at all, the row of five fields included, which without the
short row is loaded.  For every snapshot the load keeps no row or skips none. -/
theorem load_drops_all_rows_on_short_row :
    ReadAll "Title,Price,Mileage,City,Distance\na,b,c,d,e\nx,y\n" =
      Except.error CsvError.fieldCount ∧
    loadPrevious (some "Title,Price,Mileage,City,Distance\na,b,c,d,e\nx,y\n") = [] ∧
    loadPrevious (some "Title,Price,Mileage,City,Distance\na,b,c,d,e\n") =
      [{ Title := "a", Price := "b", Mileage := "c", City := "d", Distance := "e" }] ∧
    (∀ content : String, loadPrevious (some content) = [] ∨
      ∃ header rows, ReadAll content = Except.ok (header :: rows) ∧
        (∀ row ∈ rows, 5 ≤ row.length) ∧
        loadPrevious (some content) = rows.filterMap rowListing) :=
  ⟨rfl, by decide, by decide, load_skips_all_or_none⟩

/-! ## Further properties of `compareListings` -/

theorem mem_compareListings_fst (previous current : List Listing) (x : Listing) :
    x ∈ (compareListings previous current).1 ↔
      x ∈ current ∧ keyOf x ∉ previous.map keyOf := by
  rw [compareListings_fst, List.mem_filter, ← foundIn_iff_key]
  simp

theorem mem_compareListings_snd (previous current : List Listing) (x : Listing) :
    x ∈ (compareListings previous current).2 ↔
      x ∈ previous ∧ keyOf x ∉ current.map keyOf := by
  rw [compareListings_snd, List.mem_filter, ← foundIn_iff_key]
  simp

/-- C15: swapping the arguments swaps the results. -/
theorem compareListings_swap (A B added removed : List Listing)
    (h : compareListings A B = (added, removed)) :
    compareListings B A = (removed, added) := by
  have h1 : (compareListings A B).1 = added := by rw [h]
  have h2 : (compareListings A B).2 = removed := by rw [h]
  rw [compareListings_fst] at h1
  rw [compareListings_snd] at h2
  apply Prod.ext
  · rw [compareListings_fst]; exact h2
  · rw [compareListings_snd]; exact h1

/-- C15 witness: one record kept, one dropped, one new. -/
theorem compareListings_swap_witness :
    compareListings
        [{ Title := "b", Price := "1", Mileage := "2", City := "x", Distance := "y" },
         { Title := "c", Price := "1", Mileage := "2", City := "x", Distance := "y" }]
        [{ Title := "a", Price := "1", Mileage := "2", City := "x", Distance := "y" },
         { Title := "b", Price := "1", Mileage := "2", City := "x", Distance := "y" }] =
      ([{ Title := "a", Price := "1", Mileage := "2", City := "x", Distance := "y" }],
       [{ Title := "c", Price := "1", Mileage := "2", City := "x", Distance := "y" }]) :=
  compareListings_swap
    [{ Title := "a", Price := "1", Mileage := "2", City := "x", Distance := "y" },
     { Title := "b", Price := "1", Mileage := "2", City := "x", Distance := "y" }]
    [{ Title := "b", Price := "1", Mileage := "2", City := "x", Distance := "y" },
     { Title := "c", Price := "1", Mileage := "2", City := "x", Distance := "y" }]
    [{ Title := "c", Price := "1", Mileage := "2", City := "x", Distance := "y" }]
    [{ Title := "a", Price := "1", Mileage := "2", City := "x", Distance := "y" }]
    (by decide)

/-- C16, as amended: no added record has the key of a removed record; a listing
whose Price or Mileage changed is reported as an added record (its new state)
and a removed record (its old state), with different keys, when no record of
`previous` has the new key and no record of `current` has the old key; for a
single listing that is always so. -/
theorem added_removed_keys_disjoint :
    (∀ (previous current : List Listing),
      ∀ a ∈ (compareListings previous current).1, ∀ r ∈ (compareListings previous current).2,
        keyOf a ≠ keyOf r) ∧
    (∀ (previous current : List Listing) (p c : Listing), p ∈ previous → c ∈ current →
      p.Title = c.Title → (p.Price ≠ c.Price ∨ p.Mileage ≠ c.Mileage) →
      keyOf c ∉ previous.map keyOf → keyOf p ∉ current.map keyOf →
      c ∈ (compareListings previous current).1 ∧ p ∈ (compareListings previous current).2 ∧
        keyOf c ≠ keyOf p) ∧
    (∀ p c : Listing, p.Title = c.Title → (p.Price ≠ c.Price ∨ p.Mileage ≠ c.Mileage) →
      compareListings [p] [c] = ([c], [p]) ∧ keyOf c ≠ keyOf p) := by
  have hkeys : ∀ p c : Listing, (p.Price ≠ c.Price ∨ p.Mileage ≠ c.Mileage) →
      keyOf c ≠ keyOf p := by
    intro p c hd hk
    simp only [keyOf, Prod.mk.injEq] at hk
    rcases hd with hd | hd
    · exact hd hk.2.1.symm
    · exact hd hk.2.2.symm
  refine ⟨?_, ?_, ?_⟩
  · intro previous current a ha r hr hk
    rw [mem_compareListings_fst] at ha
    rw [mem_compareListings_snd] at hr
    exact ha.2 (hk ▸ List.mem_map_of_mem keyOf hr.1)
  · intro previous current p c hp hc _ hd hcn hpn
    exact ⟨(mem_compareListings_fst previous current c).2 ⟨hc, hcn⟩,
      (mem_compareListings_snd previous current p).2 ⟨hp, hpn⟩, hkeys p c hd⟩
  · intro p c _ hd
    have hne : keyOf c ≠ keyOf p := hkeys p c hd
    refine ⟨?_, hne⟩
    have hcp : foundIn c [p] = false := by
      rw [← Bool.not_eq_true, foundIn_iff_key]
      simpa using hne
    have hpc : foundIn p [c] = false := by
      rw [← Bool.not_eq_true, foundIn_iff_key]
      simpa using hne.symm
    apply Prod.ext
    · rw [compareListings_fst]; simp [hcp]
    · rw [compareListings_snd]; simp [hpc]

/-- C16 witness: the price of one of two stored listings dropped. -/
theorem added_removed_keys_disjoint_witness :
    keyOf ({ Title := "Camry", Price := "$17,500", Mileage := "40,000 mi", City := "Athens",
             Distance := "5 mi" } : Listing) ≠
      keyOf ({ Title := "Camry", Price := "$18,000", Mileage := "40,000 mi", City := "Athens",
               Distance := "5 mi" } : Listing) ∧
    (({ Title := "Camry", Price := "$17,500", Mileage := "40,000 mi", City := "Athens",
        Distance := "5 mi" } : Listing) ∈
      (compareListings
        [{ Title := "Camry", Price := "$18,000", Mileage := "40,000 mi", City := "Athens",
           Distance := "5 mi" },
         { Title := "Corolla", Price := "$15,000", Mileage := "30,000 mi", City := "Macon",
           Distance := "90 mi" }]
        [{ Title := "Camry", Price := "$17,500", Mileage := "40,000 mi", City := "Athens",
           Distance := "5 mi" },
         { Title := "Corolla", Price := "$15,000", Mileage := "30,000 mi", City := "Macon",
           Distance := "90 mi" }]).1 ∧
     ({ Title := "Camry", Price := "$18,000", Mileage := "40,000 mi", City := "Athens",
        Distance := "5 mi" } : Listing) ∈
      (compareListings
        [{ Title := "Camry", Price := "$18,000", Mileage := "40,000 mi", City := "Athens",
           Distance := "5 mi" },
         { Title := "Corolla", Price := "$15,000", Mileage := "30,000 mi", City := "Macon",
           Distance := "90 mi" }]
        [{ Title := "Camry", Price := "$17,500", Mileage := "40,000 mi", City := "Athens",
           Distance := "5 mi" },
         { Title := "Corolla", Price := "$15,000", Mileage := "30,000 mi", City := "Macon",
           Distance := "90 mi" }]).2) ∧
    compareListings
        [{ Title := "Camry", Price := "$18,000", Mileage := "40,000 mi", City := "Athens",
           Distance := "5 mi" }]
        [{ Title := "Camry", Price := "$17,500", Mileage := "40,000 mi", City := "Athens",
           Distance := "5 mi" }] =
      ([{ Title := "Camry", Price := "$17,500", Mileage := "40,000 mi", City := "Athens",
          Distance := "5 mi" }],
       [{ Title := "Camry", Price := "$18,000", Mileage := "40,000 mi", City := "Athens",
          Distance := "5 mi" }]) := by
  have h1 := added_removed_keys_disjoint.1
    [{ Title := "Camry", Price := "$18,000", Mileage := "40,000 mi", City := "Athens",
       Distance := "5 mi" }]
    [{ Title := "Camry", Price := "$17,500", Mileage := "40,000 mi", City := "Athens",
       Distance := "5 mi" }]
    { Title := "Camry", Price := "$17,500", Mileage := "40,000 mi", City := "Athens",
      Distance := "5 mi" } (by decide)
    { Title := "Camry", Price := "$18,000", Mileage := "40,000 mi", City := "Athens",
      Distance := "5 mi" } (by decide)
  have h2 := added_removed_keys_disjoint.2.1
    [{ Title := "Camry", Price := "$18,000", Mileage := "40,000 mi", City := "Athens",
       Distance := "5 mi" },
     { Title := "Corolla", Price := "$15,000", Mileage := "30,000 mi", City := "Macon",
       Distance := "90 mi" }]
    [{ Title := "Camry", Price := "$17,500", Mileage := "40,000 mi", City := "Athens",
       Distance := "5 mi" },
     { Title := "Corolla", Price := "$15,000", Mileage := "30,000 mi", City := "Macon",
       Distance := "90 mi" }]
    { Title := "Camry", Price := "$18,000", Mileage := "40,000 mi", City := "Athens",
      Distance := "5 mi" }
    { Title := "Camry", Price := "$17,500", Mileage := "40,000 mi", City := "Athens",
      Distance := "5 mi" }
    (by decide) (by decide) rfl (Or.inl (by decide)) (by decide) (by decide)
  have h3 := added_removed_keys_disjoint.2.2
    { Title := "Camry", Price := "$18,000", Mileage := "40,000 mi", City := "Athens",
      Distance := "5 mi" }
    { Title := "Camry", Price := "$17,500", Mileage := "40,000 mi", City := "Athens",
      Distance := "5 mi" } rfl (Or.inl (by decide))
  exact ⟨h1, ⟨h2.1, h2.2.1⟩, h3.1⟩

/-- C16 counterexample: the price of a stored Camry dropped to the price of
another stored Camry that is still listed.  The listing in its new state matches
that other record of `previous`, so it is not reported as added; only its old
state is reported, as removed. -/
theorem price_change_hidden_by_other_record :
    compareListings
        [{ Title := "Camry", Price := "$18,000", Mileage := "40,000 mi", City := "Athens",
           Distance := "5 mi" },
         { Title := "Camry", Price := "$17,500", Mileage := "40,000 mi", City := "Macon",
           Distance := "90 mi" }]
        [{ Title := "Camry", Price := "$17,500", Mileage := "40,000 mi", City := "Athens",
           Distance := "5 mi" },
         { Title := "Camry", Price := "$17,500", Mileage := "40,000 mi", City := "Macon",
           Distance := "90 mi" }] =
      ([], [{ Title := "Camry", Price := "$18,000", Mileage := "40,000 mi", City := "Athens",
              Distance := "5 mi" }]) ∧
    ({ Title := "Camry", Price := "$17,500", Mileage := "40,000 mi", City := "Athens",
       Distance := "5 mi" } : Listing) ∉
      (compareListings
        [{ Title := "Camry", Price := "$18,000", Mileage := "40,000 mi", City := "Athens",
           Distance := "5 mi" },
         { Title := "Camry", Price := "$17,500", Mileage := "40,000 mi", City := "Macon",
           Distance := "90 mi" }]
        [{ Title := "Camry", Price := "$17,500", Mileage := "40,000 mi", City := "Athens",
           Distance := "5 mi" },
         { Title := "Camry", Price := "$17,500", Mileage := "40,000 mi", City := "Macon",
           Distance := "90 mi" }]).1 := by
  decide

/-- C17: when both results are empty, `previous` and `current` hold the same set
of keys; and when some key is in one list and not in the other, a result is not
empty and the reporting step writes the change report. -/
theorem report_only_when_keys_differ (previous current : List Listing) :
    (compareListings previous current = ([], []) →
      ∀ k, k ∈ previous.map keyOf ↔ k ∈ current.map keyOf) ∧
    ((∃ k, ¬ (k ∈ previous.map keyOf ↔ k ∈ current.map keyOf)) →
      ((compareListings previous current).1 ≠ [] ∨ (compareListings previous current).2 ≠ []) ∧
      ∀ now, (reportChanges current (compareListings previous current).1
        (compareListings previous current).2 now).1 =
          some (changesText (compareListings previous current).1
            (compareListings previous current).2 now)) := by
  have key : compareListings previous current = ([], []) →
      ∀ k, k ∈ previous.map keyOf ↔ k ∈ current.map keyOf := by
    intro h k
    have h1 : (compareListings previous current).1 = [] := by rw [h]
    have h2 : (compareListings previous current).2 = [] := by rw [h]
    constructor
    · intro hk
      obtain ⟨p, hp, rfl⟩ := List.mem_map.1 hk
      by_contra hn
      have : p ∈ (compareListings previous current).2 :=
        (mem_compareListings_snd previous current p).2 ⟨hp, hn⟩
      rw [h2] at this
      exact List.not_mem_nil _ this
    · intro hk
      obtain ⟨c, hc, rfl⟩ := List.mem_map.1 hk
      by_contra hn
      have : c ∈ (compareListings previous current).1 :=
        (mem_compareListings_fst previous current c).2 ⟨hc, hn⟩
      rw [h1] at this
      exact List.not_mem_nil _ this
  refine ⟨key, ?_⟩
  rintro ⟨k, hk⟩
  have hne : (compareListings previous current).1 ≠ [] ∨
      (compareListings previous current).2 ≠ [] := by
    by_contra hcon
    rw [not_or, not_not, not_not] at hcon
    exact hk (key (Prod.ext hcon.1 hcon.2) k)
  refine ⟨hne, fun now => ?_⟩
  have hlen : ((compareListings previous current).1.length > 0 ||
      (compareListings previous current).2.length > 0) = true := by
    rcases hne with h | h
    · simp [List.length_pos.2 h]
    · simp [List.length_pos.2 h]
  simp only [reportChanges, hlen, if_true]

/-- C17 witness: with both results empty the key sets agree, and a key only in
`current` makes the added result non-empty. -/
theorem report_only_when_keys_differ_witness :
    (∀ k, k ∈ ([{ Title := "a", Price := "1", Mileage := "2", City := "x", Distance := "y" }] :
          List Listing).map keyOf ↔
        k ∈ ([{ Title := "a", Price := "1", Mileage := "2", City := "u", Distance := "v" }] :
          List Listing).map keyOf) ∧
    ((compareListings []
        [{ Title := "a", Price := "1", Mileage := "2", City := "x", Distance := "y" }]).1 ≠ [] ∨
      (compareListings []
        [{ Title := "a", Price := "1", Mileage := "2", City := "x", Distance := "y" }]).2 ≠ []) :=
  ⟨(report_only_when_keys_differ
      [{ Title := "a", Price := "1", Mileage := "2", City := "x", Distance := "y" }]
      [{ Title := "a", Price := "1", Mileage := "2", City := "u", Distance := "v" }]).1
      (by decide),
   ((report_only_when_keys_differ []
      [{ Title := "a", Price := "1", Mileage := "2", City := "x", Distance := "y" }]).2
      ⟨("a", "1", "2"), by simp [keyOf]⟩).1⟩

/-! ## The change report -/

theorem foldl_append_data {α : Type} (f : α → String) (xs : List α) (init : String) :
    (xs.foldl (fun out x => out ++ f x) init).data =
      init.data ++ (xs.map (fun x => (f x).data)).flatten := by
  induction xs generalizing init with
  | nil => simp
  | cons x xs ih =>
    rw [List.foldl_cons, ih, String.data_append]
    simp

theorem foldl_append_string {α : Type} (f : α → String) (xs : List α) (init : String) :
    xs.foldl (fun out x => out ++ f x) init = init ++ String.join (xs.map f) := by
  apply String.ext
  rw [foldl_append_data, String.data_append, String.join_eq]
  simp [List.map_map, Function.comp_def]

theorem map_enumFrom_succ {α β : Type} (g : Nat → α → β) (l : List α) (n : Nat) :
    (l.enumFrom n).map (fun il => g (il.1 + 1) il.2) =
      List.zipWith g (List.range' (n + 1) l.length) l := by
  induction l generalizing n with
  | nil => simp
  | cons x l ih =>
    simp only [List.enumFrom_cons, List.map_cons, List.length_cons, List.range'_succ,
      List.zipWith_cons_cons]
    rw [ih]

theorem listingLines_eq (listings : List Listing) :
    listingLines listings = numberedLines listings := by
  unfold listingLines numberedLines
  have hf : (fun (out : String) (il : Nat × Listing) =>
      out ++ toString (il.1 + 1) ++ ". " ++ il.2.Title ++ " | " ++ il.2.Price ++ " | " ++
        il.2.Mileage ++ " | " ++ il.2.City ++ " | " ++ il.2.Distance ++ "\n") =
      (fun out il => out ++ (fun il : Nat × Listing =>
        toString (il.1 + 1) ++ ". " ++ il.2.Title ++ " | " ++ il.2.Price ++ " | " ++
          il.2.Mileage ++ " | " ++ il.2.City ++ " | " ++ il.2.Distance ++ "\n") il) := by
    funext out il
    simp only [String.append_assoc]
  rw [hf, foldl_append_string, String.empty_append, List.enum]
  rw [map_enumFrom_succ (fun k (listing : Listing) =>
    toString k ++ ". " ++ listing.Title ++ " | " ++ listing.Price ++ " | " ++
      listing.Mileage ++ " | " ++ listing.City ++ " | " ++ listing.Distance ++ "\n")]

theorem changesText_eq (added removed : List Listing) (now : String) :
    changesText added removed now = reportFormat added removed now := by
  have h37 : "=====================================\n\n" =
      String.mk (List.replicate 37 '=') ++ "\n" ++ "\n" := by decide
  have h19 : "-------------------\n" = String.mk (List.replicate 19 '-') ++ "\n" := by decide
  have h21 : "---------------------\n" = String.mk (List.replicate 21 '-') ++ "\n" := by decide
  have hnil : ¬ (([] : List Listing).length > 0) := by simp
  unfold changesText reportFormat
  simp only [listingLines_eq]
  rw [h37, h19, h21]
  by_cases ha : added = [] <;> by_cases hr : removed = []
  · subst ha
    subst hr
    simp only [hnil, if_false, if_true, String.append_assoc, String.append_empty]
  · subst ha
    have hpos : removed.length > 0 := List.length_pos.2 hr
    simp only [hnil, hpos, hr, if_false, if_true, String.append_assoc, String.empty_append]
  · subst hr
    have hpos : added.length > 0 := List.length_pos.2 ha
    simp only [hnil, hpos, ha, if_false, if_true, String.append_assoc, String.append_empty]
  · have hpa : added.length > 0 := List.length_pos.2 ha
    have hpr : removed.length > 0 := List.length_pos.2 hr
    simp only [hpa, hpr, ha, hr, if_false, if_true, String.append_assoc]

/-- C12: when not both lists are empty, the text written to `listing_changes.txt`
is the header line with the timestamp, the line of 37 equals signs and a blank
line; then, only for a non-empty added list, the NEW LISTINGS line with its
count, a line of dashes, the numbered lines of the added records and a blank
line; then, only for a non-empty removed list, the REMOVED LISTINGS line with its
count, a line of dashes and the numbered lines of the removed records. -/
theorem report_text_format (listings added removed : List Listing) (now : String)
    (h : added ≠ [] ∨ removed ≠ []) :
    (reportChanges listings added removed now).1 = some (reportFormat added removed now) := by
  have hlen : (added.length > 0 || removed.length > 0) = true := by
    rcases h with h | h
    · simp [List.length_pos.2 h]
    · simp [List.length_pos.2 h]
  simp only [reportChanges, hlen, if_true, changesText_eq]

set_option maxRecDepth 100000 in
/-- C12 witness: one added record and two removed ones. -/
theorem report_text_format_witness :
    (reportChanges []
        [{ Title := "Camry 2022", Price := "$19,500", Mileage := "22,000 mi", City := "Atlanta",
           Distance := "60 mi" }]
        [{ Title := "Camry 2020", Price := "$15,000", Mileage := "61,000 mi", City := "Macon",
           Distance := "90 mi" },
         { Title := "Camry 2021", Price := "$18,000", Mileage := "40,000 mi", City := "Athens",
           Distance := "5 mi" }]
        "2024-05-01 10:00:00").1 =
      some ("Listing Changes - 2024-05-01 10:00:00\n" ++
        "=====================================\n" ++
        "\n" ++
        "NEW LISTINGS (1):\n" ++
        "-------------------\n" ++
        "1. Camry 2022 | $19,500 | 22,000 mi | Atlanta | 60 mi\n" ++
        "\n" ++
        "REMOVED LISTINGS (2):\n" ++
        "---------------------\n" ++
        "1. Camry 2020 | $15,000 | 61,000 mi | Macon | 90 mi\n" ++
        "2. Camry 2021 | $18,000 | 40,000 mi | Athens | 5 mi\n") :=
  (report_text_format [] _ _ "2024-05-01 10:00:00" (Or.inl (by decide))).trans rfl

/-! ## The summary line -/

theorem summary_states_counts (total added removed : Nat) :
    statesCounts ("Found " ++ toString total ++ " listings, " ++ toString added ++ " new, " ++
      toString removed ++ " removed. Changes saved to listing_changes.txt\n")
      total added removed := by
  have hsplit : " removed. Changes saved to listing_changes.txt\n" =
      " removed." ++ " Changes saved to listing_changes.txt\n" := by decide
  unfold statesCounts
  rw [hsplit]
  refine ⟨"Found ".data, " Changes saved to listing_changes.txt\n".data, ?_⟩
  simp only [String.data_append, List.append_assoc]

/-- C11, as amended: every run prints one summary line that states the number of
current listings.  When a listing was added or removed the line is
`Found N listings, A new, R removed. Changes saved to listing_changes.txt` with
the added and removed counts; when nothing changed it is
`Found N listings, no changes detected`, without those counts.  In the scenario
of the specification the added result is the 2022 record, the removed result is
empty and the line is
`Found 2 listings, 1 new, 0 removed. Changes saved to listing_changes.txt`. -/
theorem summary_line :
    (∀ (files : Files) (titles prices mileages cities distances : List String) (now : String),
      ((compareListings (loadPrevious files.listingsCsv)
            (assembleListings titles prices mileages cities distances)).1 = [] ∧
        (compareListings (loadPrevious files.listingsCsv)
            (assembleListings titles prices mileages cities distances)).2 = [] →
        (mainRun files titles prices mileages cities distances now).2 =
          "Found " ++
            toString (assembleListings titles prices mileages cities distances).length ++
            " listings, no changes detected\n") ∧
      ((compareListings (loadPrevious files.listingsCsv)
            (assembleListings titles prices mileages cities distances)).1 ≠ [] ∨
        (compareListings (loadPrevious files.listingsCsv)
            (assembleListings titles prices mileages cities distances)).2 ≠ [] →
        (mainRun files titles prices mileages cities distances now).2 =
          "Found " ++
            toString (assembleListings titles prices mileages cities distances).length ++
            " listings, " ++
            toString (compareListings (loadPrevious files.listingsCsv)
              (assembleListings titles prices mileages cities distances)).1.length ++
            " new, " ++
            toString (compareListings (loadPrevious files.listingsCsv)
              (assembleListings titles prices mileages cities distances)).2.length ++
            " removed. Changes saved to listing_changes.txt\n" ∧
        statesCounts (mainRun files titles prices mileages cities distances now).2
          (assembleListings titles prices mileages cities distances).length
          (compareListings (loadPrevious files.listingsCsv)
            (assembleListings titles prices mileages cities distances)).1.length
          (compareListings (loadPrevious files.listingsCsv)
            (assembleListings titles prices mileages cities distances)).2.length)) ∧
    compareListings
        [{ Title := "Camry 2021", Price := "$18,000", Mileage := "40,000 mi", City := "Athens",
           Distance := "5 mi" }]
        [{ Title := "Camry 2021", Price := "$18,000", Mileage := "40,000 mi", City := "Athens",
           Distance := "5 mi" },
         { Title := "Camry 2022", Price := "$19,500", Mileage := "22,000 mi", City := "Atlanta",
           Distance := "60 mi" }] =
      ([{ Title := "Camry 2022", Price := "$19,500", Mileage := "22,000 mi", City := "Atlanta",
          Distance := "60 mi" }], []) ∧
    (mainRun
        { listingsCsv := some (snapshotContent
            [{ Title := "Camry 2021", Price := "$18,000", Mileage := "40,000 mi",
               City := "Athens", Distance := "5 mi" }]),
          changesTxt := none }
        ["Camry 2021", "Camry 2022"] ["$18,000", "$19,500"] ["40,000 mi", "22,000 mi"]
        ["Athens", "Atlanta"] ["5 mi", "60 mi"] "2024-05-01 10:00:00").2 =
      "Found 2 listings, 1 new, 0 removed. Changes saved to listing_changes.txt\n" := by
  refine ⟨?_, by decide, by decide⟩
  intro files titles prices mileages cities distances now
  constructor
  · rintro ⟨h1, h2⟩
    simp only [mainRun, reportChanges, h1, h2]
    simp
  · intro h
    have hlen : ((compareListings (loadPrevious files.listingsCsv)
          (assembleListings titles prices mileages cities distances)).1.length > 0 ||
        (compareListings (loadPrevious files.listingsCsv)
          (assembleListings titles prices mileages cities distances)).2.length > 0) = true := by
      rcases h with h | h
      · simp [List.length_pos.2 h]
      · simp [List.length_pos.2 h]
    have hout : (mainRun files titles prices mileages cities distances now).2 =
        "Found " ++
          toString (assembleListings titles prices mileages cities distances).length ++
          " listings, " ++
          toString (compareListings (loadPrevious files.listingsCsv)
            (assembleListings titles prices mileages cities distances)).1.length ++
          " new, " ++
          toString (compareListings (loadPrevious files.listingsCsv)
            (assembleListings titles prices mileages cities distances)).2.length ++
          " removed. Changes saved to listing_changes.txt\n" := by
      simp only [mainRun, reportChanges, hlen, if_true]
    refine ⟨hout, ?_⟩
    rw [hout]
    exact summary_states_counts _ _ _

/-- C11 witness: a first run with one listing, and a run that finds nothing. -/
theorem summary_line_witness :
    (mainRun { listingsCsv := none, changesTxt := none } ["Camry 2021"] ["$18,000"]
        ["40,000 mi"] ["Athens"] ["5 mi"] "2024-05-01 10:00:00").2 =
      "Found 1 listings, 1 new, 0 removed. Changes saved to listing_changes.txt\n" ∧
    (mainRun { listingsCsv := none, changesTxt := none } [] [] [] [] []
        "2024-05-01 10:00:00").2 = "Found 0 listings, no changes detected\n" :=
  ⟨((summary_line.1 { listingsCsv := none, changesTxt := none } ["Camry 2021"] ["$18,000"]
      ["40,000 mi"] ["Athens"] ["5 mi"] "2024-05-01 10:00:00").2 (Or.inl (by decide))).1,
   (summary_line.1 { listingsCsv := none, changesTxt := none } [] [] [] [] []
      "2024-05-01 10:00:00").1 ⟨by decide, by decide⟩⟩

/-- C11 counterexample: in a run that finds the stored listing unchanged, the
summary line is `Found 1 listings, no changes detected`; it does not hold
`1 listings, 0 new, 0 removed.`, and in the scenario of the specification the
line is not `2 listings, 1 new, 0 removed.` -/
theorem summary_no_change_has_no_counts :
    (mainRun
        { listingsCsv := some (snapshotContent
            [{ Title := "Camry 2021", Price := "$18,000", Mileage := "40,000 mi",
               City := "Athens", Distance := "5 mi" }]),
          changesTxt := none }
        ["Camry 2021"] ["$18,000"] ["40,000 mi"] ["Athens"] ["5 mi"]
        "2024-05-01 10:00:00").2 = "Found 1 listings, no changes detected\n" ∧
    ¬ statesCounts (mainRun
        { listingsCsv := some (snapshotContent
            [{ Title := "Camry 2021", Price := "$18,000", Mileage := "40,000 mi",
               City := "Athens", Distance := "5 mi" }]),
          changesTxt := none }
        ["Camry 2021"] ["$18,000"] ["40,000 mi"] ["Athens"] ["5 mi"]
        "2024-05-01 10:00:00").2 1 0 0 ∧
    (mainRun
        { listingsCsv := some (snapshotContent
            [{ Title := "Camry 2021", Price := "$18,000", Mileage := "40,000 mi",
               City := "Athens", Distance := "5 mi" }]),
          changesTxt := none }
        ["Camry 2021", "Camry 2022"] ["$18,000", "$19,500"] ["40,000 mi", "22,000 mi"]
        ["Athens", "Atlanta"] ["5 mi", "60 mi"] "2024-05-01 10:00:00").2 ≠
      "2 listings, 1 new, 0 removed." := by
  refine ⟨by decide, ?_, by decide⟩
  unfold statesCounts
  decide

/-! ## The snapshot save -/

theorem snapshotContent_eq (L : List Listing) :
    snapshotContent L = String.mk
      ((["Title", "Price", "Mileage", "City", "Distance"] :: L.map Listing.toRecord).flatMap
        writeRecord) := by
  simp only [snapshotContent, List.flatMap_cons]
  rfl

/-- With no failure, `runMain` is `mainRun`. -/
theorem runMain_no_failure (files : Files) (titles prices mileages cities distances : List String)
    (now : String) (taken : Nat) :
    runMain { createSnapshotFails := false, writeFails := none, createReportFails := false,
              flushFails := false, taken := taken }
        files titles prices mileages cities distances now =
      { exit := Exit.returned,
        listingsCsv := some (utf8Bytes
          (snapshotContent (assembleListings titles prices mileages cities distances)).data),
        changesTxt := (mainRun files titles prices mileages cities distances now).1.changesTxt,
        stdout := (mainRun files titles prices mileages cities distances now).2 } := by
  have hdata : ∀ L : List Listing, (snapshotContent L).data =
      (["Title", "Price", "Mileage", "City", "Distance"] :: L.map (fun listing =>
        [listing.Title, listing.Price, listing.Mileage, listing.City,
          listing.Distance])).flatMap writeRecord := by
    intro L
    rw [snapshotContent_eq]
    rfl
  simp only [runMain, mainRun, failingWrite, afterFlush, hdata]
  cases (reportChanges (assembleListings titles prices mileages cities distances)
      (compareListings (loadPrevious files.listingsCsv)
        (assembleListings titles prices mileages cities distances)).1
      (compareListings (loadPrevious files.listingsCsv)
        (assembleListings titles prices mileages cities distances)).2 now).1 <;> simp

/-! ## A run stopped by `log.Fatal` -/

/-- When the report file cannot be created and the rows fit the buffer of the
writer, the snapshot is left empty. -/
theorem runMain_report_fails (env : Env) (files : Files)
    (titles prices mileages cities distances : List String) (now : String)
    (h1 : env.createSnapshotFails = false) (h2 : env.writeFails = none)
    (h3 : env.createReportFails = true)
    (h4 : (compareListings (loadPrevious files.listingsCsv)
        (assembleListings titles prices mileages cities distances)).1 ≠ [] ∨
      (compareListings (loadPrevious files.listingsCsv)
        (assembleListings titles prices mileages cities distances)).2 ≠ [])
    (h5 : (utf8Bytes
      (snapshotContent (assembleListings titles prices mileages cities distances)).data).length
      ≤ bufferSize) :
    (runMain env files titles prices mileages cities distances now).exit = Exit.fatal ∧
    (runMain env files titles prices mileages cities distances now).listingsCsv = some [] := by
  have hlen : ((compareListings (loadPrevious files.listingsCsv)
        (assembleListings titles prices mileages cities distances)).1.length > 0 ||
      (compareListings (loadPrevious files.listingsCsv)
        (assembleListings titles prices mileages cities distances)).2.length > 0) = true := by
    rcases h4 with h | h
    · simp [List.length_pos.2 h]
    · simp [List.length_pos.2 h]
  have h5b : (utf8Bytes
      ((["Title", "Price", "Mileage", "City", "Distance"] ::
        (assembleListings titles prices mileages cities distances).map
          (fun listing => [listing.Title, listing.Price, listing.Mileage, listing.City,
            listing.Distance])).flatMap writeRecord)).length ≤ bufferSize := by
    rw [snapshotContent_eq] at h5
    exact h5
  simp only [runMain, h1, h2, h3, failingWrite, reportChanges, hlen, if_true, Bool.false_eq_true,
    if_false]
  rw [visibleAtExit, if_pos h5b]
  exact ⟨trivial, rfl⟩

set_option maxRecDepth 100000 in
/-- A run that returns after the deferred `Flush` has failed: the file took ten
bytes, the error is not read, and the run prints its summary as if the listing
were saved. -/
theorem snapshot_cut_when_flush_fails :
    (runMain { createSnapshotFails := false, writeFails := none, createReportFails := false,
               flushFails := true, taken := 10 }
        { listingsCsv := none, changesTxt := none }
        ["Camry 2021"] ["$18,000"] ["40,000 mi"] ["Athens"] ["5 mi"]
        "2024-05-01 10:00:00").exit = Exit.returned ∧
    (runMain { createSnapshotFails := false, writeFails := none, createReportFails := false,
               flushFails := true, taken := 10 }
        { listingsCsv := none, changesTxt := none }
        ["Camry 2021"] ["$18,000"] ["40,000 mi"] ["Athens"] ["5 mi"]
        "2024-05-01 10:00:00").listingsCsv = some (utf8Bytes "Title,Pric".data) ∧
    (runMain { createSnapshotFails := false, writeFails := none, createReportFails := false,
               flushFails := true, taken := 10 }
        { listingsCsv := none, changesTxt := none }
        ["Camry 2021"] ["$18,000"] ["40,000 mi"] ["Athens"] ["5 mi"]
        "2024-05-01 10:00:00").stdout =
      "Found 1 listings, 1 new, 0 removed. Changes saved to listing_changes.txt\n" := by
  decide

set_option maxRecDepth 100000 in
/-- C13, the failing runs: `listing_changes.txt` cannot be created and the
snapshot holds a Camry at $18,000.  When the page shows that listing unchanged,
the run returns and `listings.csv` holds the header and the row of the listing.
When the page shows it at $17,500, the run reaches the save step, hands the
header and the row to the writer, and is stopped by `log.Fatal` before anything
is flushed: `listings.csv` is left empty.  What the snapshot holds after the
save step depends on the result of the comparison. -/
theorem snapshot_depends_on_comparison_when_report_fails :
    ((runMain { createSnapshotFails := false, writeFails := none, createReportFails := true,
                flushFails := false, taken := 0 }
        { listingsCsv := some (snapshotContent
            [{ Title := "Camry 2021", Price := "$18,000", Mileage := "40,000 mi",
               City := "Athens", Distance := "5 mi" }]),
          changesTxt := none }
        ["Camry 2021"] ["$18,000"] ["40,000 mi"] ["Athens"] ["5 mi"]
        "2024-05-01 10:00:00").exit = Exit.returned ∧
     (runMain { createSnapshotFails := false, writeFails := none, createReportFails := true,
                flushFails := false, taken := 0 }
        { listingsCsv := some (snapshotContent
            [{ Title := "Camry 2021", Price := "$18,000", Mileage := "40,000 mi",
               City := "Athens", Distance := "5 mi" }]),
          changesTxt := none }
        ["Camry 2021"] ["$18,000"] ["40,000 mi"] ["Athens"] ["5 mi"]
        "2024-05-01 10:00:00").listingsCsv =
      some (utf8Bytes
        "Title,Price,Mileage,City,Distance\nCamry 2021,\"$18,000\",\"40,000 mi\",Athens,5 mi\n".data)) ∧
    ((runMain { createSnapshotFails := false, writeFails := none, createReportFails := true,
                flushFails := false, taken := 0 }
        { listingsCsv := some (snapshotContent
            [{ Title := "Camry 2021", Price := "$18,000", Mileage := "40,000 mi",
               City := "Athens", Distance := "5 mi" }]),
          changesTxt := none }
        ["Camry 2021"] ["$17,500"] ["40,000 mi"] ["Athens"] ["5 mi"]
        "2024-05-01 10:00:00").exit = Exit.fatal ∧
     (runMain { createSnapshotFails := false, writeFails := none, createReportFails := true,
                flushFails := false, taken := 0 }
        { listingsCsv := some (snapshotContent
            [{ Title := "Camry 2021", Price := "$18,000", Mileage := "40,000 mi",
               City := "Athens", Distance := "5 mi" }]),
          changesTxt := none }
        ["Camry 2021"] ["$17,500"] ["40,000 mi"] ["Athens"] ["5 mi"]
        "2024-05-01 10:00:00").listingsCsv = some [] ∧
     ([] : List Nat) ≠ utf8Bytes
        "Title,Price,Mileage,City,Distance\nCamry 2021,\"$17,500\",\"40,000 mi\",Athens,5 mi\n".data) := by
  decide

set_option maxRecDepth 100000 in
/-- C14, the failing run: the snapshot holds the Camry of 2021, the page shows
that listing and a Camry of 2022, and `listing_changes.txt` cannot be created.
The run is stopped by `log.Fatal` with the rows still in the buffer of the
writer: `listings.csv`, emptied by `os.Create`, is left empty.  It holds neither
what it held before nor the current listings, and the next run loads no
previous listing from it. -/
theorem snapshot_left_empty_when_report_fails :
    (runMain { createSnapshotFails := false, writeFails := none, createReportFails := true,
               flushFails := false, taken := 0 }
        { listingsCsv := some (snapshotContent
            [{ Title := "Camry 2021", Price := "$18,000", Mileage := "40,000 mi",
               City := "Athens", Distance := "5 mi" }]),
          changesTxt := none }
        ["Camry 2021", "Camry 2022"] ["$18,000", "$19,500"] ["40,000 mi", "22,000 mi"]
        ["Athens", "Atlanta"] ["5 mi", "60 mi"] "2024-05-01 10:00:00").exit = Exit.fatal ∧
    (runMain { createSnapshotFails := false, writeFails := none, createReportFails := true,
               flushFails := false, taken := 0 }
        { listingsCsv := some (snapshotContent
            [{ Title := "Camry 2021", Price := "$18,000", Mileage := "40,000 mi",
               City := "Athens", Distance := "5 mi" }]),
          changesTxt := none }
        ["Camry 2021", "Camry 2022"] ["$18,000", "$19,500"] ["40,000 mi", "22,000 mi"]
        ["Athens", "Atlanta"] ["5 mi", "60 mi"] "2024-05-01 10:00:00").listingsCsv =
      some (utf8Bytes "".data) ∧
    "" ≠ snapshotContent
        [{ Title := "Camry 2021", Price := "$18,000", Mileage := "40,000 mi",
           City := "Athens", Distance := "5 mi" }] ∧
    "" ≠ snapshotContent
        [{ Title := "Camry 2021", Price := "$18,000", Mileage := "40,000 mi",
           City := "Athens", Distance := "5 mi" },
         { Title := "Camry 2022", Price := "$19,500", Mileage := "22,000 mi",
           City := "Atlanta", Distance := "60 mi" }] ∧
    loadPrevious (some "") = [] := by
  decide

end Scraper
